import Mathlib

/-!
# Verification of `conbuilder.py`

A shallow embedding of the layer-cache build orchestrator `conbuilder.py`
(overlay-filesystem based Debian package builds) together with proofs about
its mount/unmount discipline, dependency fingerprinting, parsing contract,
cache reuse, and the frame properties of `update` and `install`.

External effects (shell commands, container invocations, filesystem checks
performed by external tools) are mediated by an `Oracle`: a deterministic
assignment of outcomes to each external command string and sentinel check.
The embedded program is a function from an initial filesystem state to a
trace of externally visible events, a final state, and an `Except` result
mirroring Python's exception flow (`try`/`finally` is modelled explicitly).
-/

namespace Conbuilder

/-- Errors mirroring the Python exception flow of `conbuilder.py`:
`cmdFailed` is the `Exception` raised by `run` on a non-zero exit status,
`assertFailed` is an `AssertionError`, `sysExit` is `sys.exit(code)`,
`valueErr` is the `ValueError` raised by unpacking a short split result. -/
inductive Err where
  | cmdFailed (cmd : String)
  | assertFailed (msg : String)
  | sysExit (code : Nat)
  | valueErr
  deriving DecidableEq, Repr

/-- Externally visible events of one session, in order of occurrence.
`cmdE c ok` is an invocation of `run(c)` (`ok` = zero exit status);
`nspawnE c ok` is `run` of a full `systemd-nspawn` command built by `nspawn`;
`mkdirE p` is `os.makedirs(p)` / `Path.mkdir`; `writeE p c` writes file `p`;
`mountCallE` marks entry into `mount()`, `mountedE m` marks its normal
return (OS mount succeeded and the sentinel check passed), and
`umountCallE m` marks entry into `umount(m)`. -/
inductive Ev where
  | cmdE (c : String) (ok : Bool)
  | nspawnE (c : String) (ok : Bool)
  | mkdirE (p : String)
  | writeE (p : String) (content : String)
  | mountCallE (lower upper work mnt : String)
  | mountedE (mnt : String)
  | umountCallE (mnt : String)
  deriving DecidableEq, Repr

/-- Filesystem state: the set of paths known to exist (directories created by
the program and files it wrote).  External tools populate layer *contents*,
which the program never lists; it only tests existence of paths it manages. -/
structure St where
  fs : List String
  deriving DecidableEq, Repr

/-- Deterministic outcomes of the external world:
`runOut c` is `some lines` when shell command `c` exits 0 with captured
output `lines`, `none` when it exits non-zero (so `run` raises);
`fileOk p` / `dirOk p` answer `Path(p).is_file()` / `Path(p).is_dir()` for
sentinel paths materialised by external tools; `sha224hex10 s` is
`hashlib.sha224(s.encode()).hexdigest()[:10]`; `abspath p` is
`os.path.abspath(p)`. -/
structure Oracle where
  runOut : String → Option (List String)
  fileOk : String → Bool
  dirOk : String → Bool
  sha224hex10 : String → String
  abspath : String → String

/-- The configuration fields of `conf` used by the embedded operations. -/
structure Conf where
  cachedir : String
  codename : String
  export_dir : String
  extra_args : List String
  verbose : Nat
  drop_capability : String
  system_call_filter : String

instance {ε α : Type} [DecidableEq ε] [DecidableEq α] : DecidableEq (Except ε α)
  | .ok x, .ok y =>
    if h : x = y then .isTrue (h ▸ rfl) else .isFalse (fun c => h (Except.ok.inj c))
  | .error x, .error y =>
    if h : x = y then .isTrue (h ▸ rfl) else .isFalse (fun c => h (Except.error.inj c))
  | .ok _, .error _ => .isFalse Except.noConfusion
  | .error _, .ok _ => .isFalse Except.noConfusion

/-- The effect monad: initial state to (trace, final state, result). -/
def M (α : Type) : Type := St → List Ev × St × Except Err α

def mret {α : Type} (a : α) : M α := fun s => ([], s, .ok a)

def mbind {α β : Type} (x : M α) (f : α → M β) : M β := fun s =>
  match x s with
  | (t, s1, .error e) => (t, s1, .error e)
  | (t, s1, .ok a) =>
    match f a s1 with
    | (t2, s2, r) => (t ++ t2, s2, r)

instance : Monad M where
  pure := mret
  bind := mbind

/-- Python `try: body finally: fin`: `fin` always runs; an exception raised
by `fin` replaces the pending result of `body`. -/
def tryFinally {α : Type} (body : M α) (fin : M Unit) : M α := fun s =>
  match body s with
  | (t, s1, rb) =>
    match fin s1 with
    | (t2, s2, rf) =>
      (t ++ t2, s2, match rf with
        | .error e => .error e
        | .ok _ => rb)

def mthrow {α : Type} (e : Err) : M α := fun s => ([], s, .error e)

/-- `assert b, msg`. -/
def massert (b : Bool) (msg : String) : M Unit :=
  if b then mret () else mthrow (.assertFailed msg)

/-- `os.path.exists` / `Path.exists` against the managed-path state. -/
def pathExists (p : String) : M Bool := fun s => ([], s, .ok (s.fs.contains p))

/-- `os.makedirs(p)` / `Path(p).mkdir(parents=True)`: raises if `p` exists. -/
def mkdirs (p : String) : M Unit := fun s =>
  if s.fs.contains p then ([], s, .error (.cmdFailed ("mkdir: " ++ p)))
  else ([.mkdirE p], ⟨p :: s.fs⟩, .ok ())

/-- `Path(p).mkdir(parents=True, exist_ok=True)`. -/
def mkdirsOk (p : String) : M Unit := fun s =>
  if s.fs.contains p then ([], s, .ok ())
  else ([.mkdirE p], ⟨p :: s.fs⟩, .ok ())

/-- `open(p, "w").write(c)`. -/
def writeFile (p content : String) : M Unit := fun s =>
  ([.writeE p content], ⟨p :: s.fs⟩, .ok ())

/-- `run(cmd)`: capture output lines, raise on non-zero exit. -/
def run (o : Oracle) (cmd : String) : M (List String) := fun s =>
  match o.runOut cmd with
  | some out => ([.cmdE cmd true], s, .ok out)
  | none => ([.cmdE cmd false], s, .error (.cmdFailed cmd))

/-- The command string built by `mount` (source line 144: two adjacent
Python string literals concatenate). -/
def mountCmdStr (lower upper work mnt : String) : String :=
  "sudo mount -t overlay overlay -olowerdir=" ++ lower ++ ",upperdir=" ++ upper
    ++ ",workdir=" ++ work ++ " " ++ mnt

/-- `mount(lower, upper, work, mnt)`: run the overlay mount command, then
`assert (mnt / "usr/bin/apt").is_file()`.  `mountCallE` instruments entry
into the function, `mountedE` its normal return. -/
def mount (o : Oracle) (lower upper work mnt : String) : M Unit := fun s =>
  match (mbind (run o (mountCmdStr lower upper work mnt)) (fun _ =>
    mbind (massert (o.fileOk (mnt ++ "/usr/bin/apt"))
      ("mount check failed: " ++ mnt)) (fun _ => fun s => ([.mountedE mnt], s, .ok ())))) s with
  | (t, s1, r) => (.mountCallE lower upper work mnt :: t, s1, r)

/-- `umount(path)`.  `umountCallE` instruments entry into the function. -/
def umount (o : Oracle) (path : String) : M Unit := fun s =>
  match run o ("sudo umount " ++ path) s with
  | (t, s1, .ok _) => (.umountCallE path :: t, s1, .ok ())
  | (t, s1, .error e) => (.umountCallE path :: t, s1, .error e)

/-- The full `systemd-nspawn` command string built by `nspawn`. -/
def nspawnCmdStr (drop_capability system_call_filter rcmd : String) : String :=
  "sudo systemd-nspawn -M conbuilder --chdir=/srv "
    ++ (if drop_capability ≠ "" then "--drop-capability=" ++ drop_capability ++ " " else "")
    ++ (if system_call_filter ≠ "" then "--system-call-filter=" ++ system_call_filter ++ " " else "")
    ++ rcmd

/-- `nspawn(rcmd, drop_capability, system_call_filter)`: builds the full
command and runs it (the underlying `run` is recorded as `nspawnE`). -/
def nspawn (o : Oracle) (rcmd drop_capability system_call_filter : String) :
    M (List String) := fun s =>
  let c := nspawnCmdStr drop_capability system_call_filter rcmd
  match o.runOut c with
  | some out => ([.nspawnE c true], s, .ok out)
  | none => ([.nspawnE c false], s, .error (.cmdFailed c))

/-! ## Dependency parsing and fingerprinting -/

/-- Python `s.split(" ", maxsplit)` on the character list: split at each
single space character, at most `maxsplit` times, empties preserved. -/
def pysplitAux : Nat → List Char → List Char → List (List Char)
  | _, acc, [] => [acc.reverse]
  | 0, acc, rest => [acc.reverse ++ rest]
  | Nat.succ n, acc, c :: rest =>
    if c = ' ' then acc.reverse :: pysplitAux n [] rest
    else pysplitAux (Nat.succ n) (c :: acc) rest

/-- Python `s.split(" ", maxsplit)`. -/
def pysplit (s : String) (maxsplit : Nat) : List String :=
  (pysplitAux maxsplit [] s.data).map (fun l => String.mk l)

/-- Python `s.startswith(pre)` (character-prefix test). -/
def pyStartsWith (s pre : String) : Bool := pre.data.isPrefixOf s.data

/-- Python `s[1:]` (drop the first character). -/
def pyDrop1 (s : String) : String := String.mk (s.data.drop 1)

/-- The body of the loop of `_parse_build_deps` for a single line:
`ok none` = line ignored (no `"Inst "` prefix); `ok (some (name, ver))` =
parsed dependency; `error` = the `ValueError` from unpacking fewer than four
fields, or the `AssertionError` from the two version-format asserts. -/
def parseDepLine (line : String) : Except Err (Option (String × String)) :=
  if pyStartsWith line "Inst " then
    match pysplit line 3 with
    | [_, pkgname, version, _] =>
      if pyStartsWith version "(" then
        let version1 := pyDrop1 version
        if version1 = "" then
          .error (.assertFailed ("Cannot parse version from " ++ line))
        else .ok (some (pkgname, version1))
      else .error (.assertFailed ("Cannot parse version from " ++ line))
    | _ => .error .valueErr
  else .ok none

/-- The accumulation of `deps` as a Python `set`: an insertion-ordered list
of distinct pairs (membership-deduplicated). -/
def depsFold : List String → List (String × String) → Except Err (List (String × String))
  | [], acc => .ok acc
  | l :: rest, acc =>
    match parseDepLine l with
    | .error e => .error e
    | .ok none => depsFold rest acc
    | .ok (some p) => depsFold rest (if acc.contains p then acc else acc ++ [p])

/-- Python's ordering on pairs of strings (tuple comparison). -/
def pairLe (x y : String × String) : Prop :=
  x.1 < y.1 ∨ (x.1 = y.1 ∧ x.2 ≤ y.2)

instance : DecidableRel pairLe := fun x y => by
  unfold pairLe; infer_instance

/-- Python `sorted` on a list of `(name, version)` pairs. -/
def pysorted (l : List (String × String)) : List (String × String) :=
  List.insertionSort pairLe l

/-- `_parse_build_deps(out)`: collect `(name, version)` from every
`"Inst "`-prefixed line into a set, return `sorted(deps)`. -/
def parse_build_deps (out : List String) : Except Err (List (String × String)) :=
  (depsFold out []).map pysorted

/-- Python `repr` of a string (quote-wrapping; escaping of exotic
characters is not modelled, which does not affect determinism). -/
def pyReprStr (s : String) : String := "\x27" ++ s ++ "\x27"

/-- Python `str` of a 2-tuple of strings. -/
def pyReprPair (p : String × String) : String :=
  "(" ++ pyReprStr p.1 ++ ", " ++ pyReprStr p.2 ++ ")"

/-- Python `str` of a list of 2-tuples of strings. -/
def pyStrPairs (l : List (String × String)) : String :=
  "[" ++ String.intercalate ", " (l.map pyReprPair) ++ "]"

/-- The pure tail of `extract_build_dependencies`: from the captured output
lines, parse the dependency set and derive the fingerprint
`sha224(str(sorted(deps)))[:10]`. -/
def fingerprint_of_output (o : Oracle) (out : List String) :
    Except Err (List (String × String) × String) :=
  (parse_build_deps out).map (fun deps =>
    (deps, o.sha224hex10 (pyStrPairs (pysorted deps))))

/-- The nspawn argument string built by `extract_build_dependencies`. -/
def extractCmd (l1dir : String) : String :=
  "-D " ++ l1dir ++ " --read-only " ++ "--overlay=$(pwd)::/srv  -- /usr/bin/apt-get build-dep -s ."

/-- `extract_build_dependencies(l1dir)`: simulate dependency resolution in a
read-only overlay of L1 and fingerprint the result. -/
def extract_build_dependencies (o : Oracle) (l1dir : String) :
    M (List (String × String) × String) :=
  mbind (nspawn o (extractCmd l1dir) "" "") (fun out =>
    match fingerprint_of_output o out with
    | .error e => mthrow e
    | .ok dh => mret dh)

/-! ## Layer operations -/

/-- The debootstrap command of `create_l1` (two adjacent Python string
literals concatenate, leaving two spaces before `--force-check-gpg`). -/
def debootstrapCmd (codename l1dir : String) : String :=
  "sudo debootstrap --include=apt  --force-check-gpg " ++ codename ++ " " ++ l1dir
    ++ " http://deb.debian.org/debian"

/-- `create_l1(conf, l1dir)`: refuse to overwrite an existing L1
(`sys.exit(1)`); otherwise create the dir, run debootstrap, and assert the
`apt` binary and `/etc` are present. -/
def create_l1 (o : Oracle) (conf : Conf) (l1dir : String) : M Unit :=
  mbind (pathExists l1dir) (fun ex =>
    if ex then mthrow (.sysExit 1)
    else
      mbind (mkdirs l1dir) (fun _ =>
        mbind (run o (debootstrapCmd conf.codename l1dir)) (fun _ =>
          mbind (massert (o.fileOk (l1dir ++ "/usr/bin/apt")) "apt missing in L1")
            (fun _ => massert (o.dirOk (l1dir ++ "/etc"))
              ("/etc not found in " ++ l1dir)))))

/-- The first nspawn argument string of `update_l1`. -/
def updateCmd1 (l1dir : String) : String :=
  "-D " ++ l1dir ++ " -- /usr/bin/apt-get -y update"

/-- The second nspawn argument string of `update_l1`. -/
def updateCmd2 (l1dir : String) : String :=
  "-D " ++ l1dir ++ " -E DEBIAN_FRONTEND=noninteractive -- /usr/bin/apt-get -y dist-upgrade"

/-- `update_l1(conf, l1dir)`: run `apt-get update` and `dist-upgrade`
inside a container rooted at the existing L1 dir (in place; no L2 is
touched — the `# TODO invalidate L2s` of the source is not implemented). -/
def update_l1 (o : Oracle) (l1dir : String) : M Unit :=
  mbind (nspawn o (updateCmd1 l1dir) "" "") (fun _ =>
    mbind (nspawn o (updateCmd2 l1dir) "" "") (fun _ => mret ()))

/-- The real (non-simulated) dependency-install nspawn argument string of
`create_l2`. -/
def installDepsCmd (l2mountdir : String) : String :=
  "-D " ++ l2mountdir
    ++ " -E DEBIAN_FRONTEND=noninteractive --overlay=$(pwd)::/srv  -- /usr/bin/apt-get build-dep -y ."

/-- `create_l2(conf, l1dir, l2dir, l2workdir, l2mountdir, expected_deps)`:
create L2's three dirs, then inside `try/finally`: mount with L1's content
dir as lower, run the real `apt-get build-dep -y`, parse its output, and
write the `.deps.conbuilder` manifest; the `finally` unmounts.  Note: the
source (line 300) assigns `cmd = "-D {} --overlay=$(pwd)::/srv  --
/usr/bin/apt-get clean"` but never formats or executes it — the embedded
trace therefore contains no cache-clean invocation. -/
def create_l2 (o : Oracle) (conf : Conf)
    (l1dir l2dir l2workdir l2mountdir : String)
    (expected_deps : List (String × String)) : M Unit :=
  mbind (mkdirs l2dir) (fun _ =>
  mbind (mkdirs l2workdir) (fun _ =>
  mbind (mkdirs l2mountdir) (fun _ =>
    tryFinally
      (mbind (mount o l1dir l2dir l2workdir l2mountdir) (fun _ =>
        let deps_list := expected_deps.map (fun nv => nv.1 ++ ":" ++ nv.2)
        mbind (nspawn o (installDepsCmd l2mountdir) "" "") (fun out =>
          match parse_build_deps out with
          | .error e => mthrow e
          | .ok _ =>
            writeFile (l2mountdir ++ "/.deps.conbuilder")
              (String.intercalate "\n" deps_list))))
      (umount o l2mountdir))))

/-- L1 content dir for a codename: `cachedir / "l1" / codename`. -/
def l1dirOf (conf : Conf) : String := conf.cachedir ++ "/l1/" ++ conf.codename

/-- L2 content dir for a fingerprint. -/
def l2dirOf (conf : Conf) (dh : String) : String := conf.cachedir ++ "/l2/fs/" ++ dh

/-- L2 overlay work dir for a fingerprint. -/
def l2workdirOf (conf : Conf) (dh : String) : String :=
  conf.cachedir ++ "/l2/overlay_work/" ++ dh

/-- L2 mount point for a fingerprint. -/
def l2mountdirOf (conf : Conf) (dh : String) : String :=
  conf.cachedir ++ "/l2/overlay_mount/" ++ dh

/-- L3 content dir for a fingerprint. -/
def l3dirOf (conf : Conf) (dh : String) : String := conf.cachedir ++ "/l3/fs/" ++ dh

/-- L3 overlay work dir for a fingerprint. -/
def l3workdirOf (conf : Conf) (dh : String) : String :=
  conf.cachedir ++ "/l3/overlay_work/" ++ dh

/-- L3 mount point for a fingerprint. -/
def l3mountdirOf (conf : Conf) (dh : String) : String :=
  conf.cachedir ++ "/l3/overlay_mount/" ++ dh

/-- The `dpkg-buildpackage` nspawn argument string of `build`. -/
def buildPkgCmd (l3mountdir : String) (extra_args : List String) : String :=
  "--private-network -D " ++ l3mountdir ++ " -- /usr/bin/dpkg-buildpackage "
    ++ String.intercalate " " extra_args

/-- One artifact-export copy command of `build`. -/
def exportCmd (l3dir e dest : String) : String :=
  "cp -a " ++ l3dir ++ "/*." ++ e ++ " " ++ dest ++ "/ || true"

/-- The artifact extensions recognised by `build`'s export step, in source
order. -/
def exportExts : List String := ["deb", "changes", "xz", "gz", "buildinfo", "dsc"]

/-- The `for e in exts:` export loop of `build`. -/
def exportLoop (o : Oracle) (l3dir dest : String) : List String → M Unit
  | [] => mret ()
  | e :: rest =>
    mbind (run o (exportCmd l3dir e dest)) (fun _ => exportLoop o l3dir dest rest)

/-- The innermost `try/finally` of `build`: mount L3 over L2's mount point,
copy the source tree in, run `dpkg-buildpackage` inside the namespace;
`finally` unmounts L3. -/
def buildL3Phase (o : Oracle) (conf : Conf)
    (l2mountdir l3dir l3workdir l3mountdir : String) : M Unit :=
  tryFinally
    (mbind (mount o l2mountdir l3dir l3workdir l3mountdir) (fun _ =>
      mbind (run o ("sudo cp -a . " ++ l3mountdir ++ "/srv")) (fun _ =>
        mbind (nspawn o (buildPkgCmd l3mountdir conf.extra_args)
          conf.drop_capability conf.system_call_filter)
          (fun _ => mret ()))))
    (umount o l3mountdir)

/-- The outer `try/finally` of `build`: mount L2, create L3's three dirs if
the L3 content dir is absent, run the L3 phase; `finally` unmounts L2. -/
def buildL2Phase (o : Oracle) (conf : Conf)
    (l1dir l2dir l2workdir l2mountdir l3dir l3workdir l3mountdir : String) : M Unit :=
  tryFinally
    (mbind (mount o l1dir l2dir l2workdir l2mountdir) (fun _ =>
      mbind (pathExists l3dir) (fun l3ex =>
      mbind (if l3ex then mret ()
             else mbind (mkdirs l3dir) (fun _ =>
                  mbind (mkdirs l3workdir) (fun _ => mkdirs l3mountdir)))
        (fun _ =>
          buildL3Phase o conf l2mountdir l3dir l3workdir l3mountdir))))
    (umount o l2mountdir)

/-- The export step of `build`, run on success only. -/
def buildExport (o : Oracle) (conf : Conf) (l3dir : String) : M Unit :=
  if conf.export_dir ≠ "" then
    exportLoop o l3dir (o.abspath conf.export_dir) exportExts
  else mret ()

/-- The L2 selection and everything after it in `build`: reuse the
persisted L2 dir when present, otherwise create it; then the mounted
phases and the export step. -/
def buildL2Sel (o : Oracle) (conf : Conf) (l1dir : String)
    (dd : List (String × String) × String) : M Unit :=
  let dep_hash := dd.2
  let l2dir := l2dirOf conf dep_hash
  let l2workdir := l2workdirOf conf dep_hash
  let l2mountdir := l2mountdirOf conf dep_hash
  mbind (pathExists l2dir) (fun l2ex =>
  mbind (if l2ex then mret ()
         else create_l2 o conf l1dir l2dir l2workdir l2mountdir dd.1) (fun _ =>
    mbind
      (buildL2Phase o conf l1dir l2dir l2workdir l2mountdir
        (l3dirOf conf dep_hash) (l3workdirOf conf dep_hash) (l3mountdirOf conf dep_hash))
      (fun _ => buildExport o conf (l3dirOf conf dep_hash))))

/-- `build` from the dependency-extraction step on. -/
def buildFromExtract (o : Oracle) (conf : Conf) (l1dir : String) : M Unit :=
  mbind (extract_build_dependencies o l1dir)
    (fun dd => buildL2Sel o conf l1dir dd)

/-- `build(conf)`: ensure L1, fingerprint the dependency set, ensure L2
(cache hit reuses the persisted dir), then inside nested `try/finally`
blocks mount L2, ensure and mount L3, copy the source tree in, run
`dpkg-buildpackage` in the namespace, and unmount both; on success export
recognised artifacts.  The L3 path computations are hoisted out of the
`try` block (they are pure string constructions).  The source's `success`
flag is equivalent to normal completion of the outer `try` (any failure
propagates as an exception), so the export step runs exactly on `.ok`. -/
def build (o : Oracle) (conf : Conf) : M Unit :=
  let l1dir := l1dirOf conf
  mbind (pathExists l1dir) (fun l1ex =>
  mbind (if l1ex then mret () else create_l1 o conf l1dir) (fun _ =>
    buildFromExtract o conf l1dir))

/-- The copy loop of `install`: `for fn in deb_fnames: run("sudo cp -a {fn}
{l2mountdir}/srv/")`. -/
def copyLoop (o : Oracle) (l2mountdir : String) : List String → M Unit
  | [] => mret ()
  | fn :: rest =>
    mbind (run o ("sudo cp -a " ++ fn ++ " " ++ l2mountdir ++ "/srv/"))
      (fun _ => copyLoop o l2mountdir rest)

/-- The interactive-shell nspawn argument string that `install` actually
runs. -/
def installBashCmd (l2mountdir : String) : String := "-D " ++ l2mountdir ++ " -- /bin/bash"

/-- `install(conf)`: ensure L1, create a temporary `l2i` layer under the
fixed slot `"foo"`, mount it, copy the given package files into `/srv`,
then run a namespace command.  The source first assigns `cmd = "-D {} --
/usr/bin/apt install -y /srv/safeeyes_2.0.0-2_all.deb"` and immediately
overwrites it with `cmd = "-D {} -- /bin/bash"`, so the command executed is
the interactive shell; the discarded assignment is kept here as a dead
binding to mirror the source. -/
def install (o : Oracle) (conf : Conf) : M Unit :=
  let l1dir := l1dirOf conf
  mbind (pathExists l1dir) (fun l1ex =>
  mbind (if l1ex then mret () else create_l1 o conf l1dir) (fun _ =>
    let dep_hash := "foo"
    let l2dir := conf.cachedir ++ "/l2i/fs/" ++ dep_hash
    let l2workdir := conf.cachedir ++ "/l2i/overlay_work/" ++ dep_hash
    let l2mountdir := conf.cachedir ++ "/l2i/overlay_mount/" ++ dep_hash
    mbind (mkdirsOk l2dir) (fun _ =>
    mbind (mkdirsOk l2workdir) (fun _ =>
    mbind (mkdirsOk l2mountdir) (fun _ =>
      tryFinally
        (mbind (mount o l1dir l2dir l2workdir l2mountdir) (fun _ =>
          mbind (copyLoop o l2mountdir conf.extra_args) (fun _ =>
            let _cmd_discarded :=
              "-D " ++ l2mountdir ++ " -- /usr/bin/apt install -y /srv/safeeyes_2.0.0-2_all.deb"
            mbind (nspawn o (installBashCmd l2mountdir) "" "") (fun _ => mret ()))))
        (umount o l2mountdir))))))

/-- Modelled from the spec: the `purge` action of the reference code raises
`NotImplementedError` (`main`, line 463), so the eviction algorithm is
missing from the source and is modelled from spec §4.5: enumerate persisted
L2 layers with an age in days; delete every layer older than `maxAgeDays`;
if the remaining count still exceeds `maxCount`, delete oldest-first until
at or under the limit.  Layers are represented by their ages; the result is
`(deleted, remaining)`. -/
def purge_l2 (maxAgeDays maxCount : Nat) (ages : List Nat) : List Nat × List Nat :=
  let deletedOld := ages.filter (fun a => maxAgeDays < a)
  let kept := ages.filter (fun a => a ≤ maxAgeDays)
  if kept.length ≤ maxCount then (deletedOld, kept)
  else
    let oldestFirst := List.insertionSort (fun a b => a ≥ b) kept
    let extra := kept.length - maxCount
    (deletedOld ++ oldestFirst.take extra,
     kept.filter (fun a => a ∉ oldestFirst.take extra))

/-! ## Trace analysis -/

/-- Run the mount/unmount discipline over a trace as a stack machine:
a successful mount (`mountedE m`) pushes `m`; an unmount call
(`umountCallE m`) must pop exactly the innermost live mount point.
`some []` from an empty initial stack therefore states: unmount calls and
successful mount calls are equinumerous and properly nested, each unmount
releasing the most recent live mount (strict reverse order). -/
def mountStack : List String → List Ev → Option (List String)
  | stk, [] => some stk
  | stk, Ev.mountedE m :: t => mountStack (m :: stk) t
  | stk, Ev.umountCallE m :: t =>
    match stk with
    | [] => none
    | top :: rest => if m = top then mountStack rest t else none
  | stk, Ev.cmdE _ _ :: t => mountStack stk t
  | stk, Ev.nspawnE _ _ :: t => mountStack stk t
  | stk, Ev.mkdirE _ :: t => mountStack stk t
  | stk, Ev.writeE _ _ :: t => mountStack stk t
  | stk, Ev.mountCallE _ _ _ _ :: t => mountStack stk t

/-- Number of calls to `umount` recorded in a trace. -/
def umountCalls (t : List Ev) : Nat :=
  t.countP (fun e => match e with | Ev.umountCallE _ => true | _ => false)

/-- Number of successful `mount` calls recorded in a trace. -/
def mountedCount (t : List Ev) : Nat :=
  t.countP (fun e => match e with | Ev.mountedE _ => true | _ => false)

/-! ## Witness fixtures: concrete oracles and configuration -/

/-- An external world in which every command succeeds with empty output and
every sentinel check passes. -/
def oW : Oracle :=
  { runOut := fun _ => some []
    fileOk := fun _ => true
    dirOk := fun _ => true
    sha224hex10 := fun _ => "deadbeef00"
    abspath := fun p => p }

/-- A concrete configuration. -/
def confW : Conf :=
  { cachedir := "/var/cache/conbuilder"
    codename := "sid"
    export_dir := "../build-area/"
    extra_args := []
    verbose := 0
    drop_capability := ""
    system_call_filter := "" }

/-- The L2 overlay-mount command of the `confW` session. -/
def l2MountCmdW : String :=
  mountCmdStr (l1dirOf confW) (l2dirOf confW "deadbeef00")
    (l2workdirOf confW "deadbeef00") (l2mountdirOf confW "deadbeef00")

/-- Like `oW`, but the overlay-mount command for the L2 layer of the
`confW`/`oW` session fails (non-zero exit). -/
def oMountFail : Oracle :=
  { oW with runOut := fun c => if c = l2MountCmdW then none else some [] }

/-- Initial state for the counterexample session: all three layers'
content dirs already exist, so `build` goes straight to the L2 mount. -/
def stAllLayers : St :=
  ⟨[l1dirOf confW, l2dirOf confW "deadbeef00", l3dirOf confW "deadbeef00"]⟩

/-! ## Claim C3: the parsing contract -/

/-- **C3.** The dependency-output parser satisfies its contract: the line
`"Inst foo (1.2-3 Debian:unstable [amd64]) []"` parses to `("foo","1.2-3")`;
the line `"Inst foo 1.2-3 ..."` (version field not beginning with a
parenthesis) raises the parse-failure `AssertionError`; and every line not
beginning with the `"Inst "` prefix is ignored — it contributes nothing to
the result. -/
theorem c3_parse_contract (line : String) (rest : List String)
    (h : pyStartsWith line "Inst " = false) :
    parse_build_deps ["Inst foo (1.2-3 Debian:unstable [amd64]) []"]
        = Except.ok [("foo", "1.2-3")] ∧
    parse_build_deps ["Inst foo 1.2-3 ..."]
        = Except.error (Err.assertFailed "Cannot parse version from Inst foo 1.2-3 ...") ∧
    parse_build_deps (line :: rest) = parse_build_deps rest := by
  refine ⟨by decide, by decide, ?_⟩
  simp [parse_build_deps, depsFold, parseDepLine, h]

/-- Witness for `c3_parse_contract` at a concrete ignored line. -/
theorem c3_parse_contract_witness :
    (pyStartsWith "xyz" "Inst " = false) ∧
    parse_build_deps ["xyz", "Inst a (1 u) v"] = parse_build_deps ["Inst a (1 u) v"] :=
  ⟨by decide, (c3_parse_contract "xyz" ["Inst a (1 u) v"] (by decide)).2.2⟩

/-! ## Claim C6: the eviction scenario (spec-modelled) -/

/-- **C6.** L2 layers aged `[5, 40, 2, 35]` days with `maxAgeDays = 30` and
`maxCount = 10`: eviction deletes exactly the layers aged 40 and 35, and the
remaining layers (aged 5 and 2; count 2, under `maxCount`) survive with no
further deletion.  (`purge_l2` is modelled from spec §4.5 because the
reference `purge` action raises `NotImplementedError`.) -/
theorem c6_eviction_scenario :
    purge_l2 30 10 [5, 40, 2, 35] = ([40, 35], [5, 2]) := by decide

/-! ## Claim C7: the L1 creation guard -/

/-- **C7.** For every codename whose persisted L1 content dir already
exists, `create_l1` fails immediately (the `sys.exit(1)` abort realising
the spec's LayerConflict): it performs no external action at all (empty
trace — in particular the bootstrap tool is never run) and leaves the
state, hence the existing L1 content, unmodified. -/
theorem c7_l1_guard (o : Oracle) (conf : Conf) (l1dir : String) (s : St)
    (h : l1dir ∈ s.fs) :
    create_l1 o conf l1dir s = ([], s, Except.error (Err.sysExit 1)) := by
  simp [create_l1, mbind, pathExists, h, mthrow]

/-- Witness for `c7_l1_guard` at a concrete pre-existing L1. -/
theorem c7_l1_guard_witness :
    ("/var/cache/conbuilder/l1/sid" ∈ (⟨["/var/cache/conbuilder/l1/sid"]⟩ : St).fs) ∧
    create_l1 oW confW "/var/cache/conbuilder/l1/sid" ⟨["/var/cache/conbuilder/l1/sid"]⟩
      = ([], ⟨["/var/cache/conbuilder/l1/sid"]⟩, Except.error (Err.sysExit 1)) :=
  ⟨by decide, c7_l1_guard oW confW _ _ (by decide)⟩

/-! ## Mount-stack infrastructure -/

theorem mountStack_append (t1 t2 : List Ev) (stk : List String) :
    mountStack stk (t1 ++ t2) = (mountStack stk t1).bind (fun s2 => mountStack s2 t2) := by
  induction t1 generalizing stk with
  | nil => simp [mountStack]
  | cons e t ih =>
    cases e with
    | mountedE m => simpa [mountStack] using ih (m :: stk)
    | umountCallE m =>
      cases stk with
      | nil => simp [mountStack]
      | cons top rest =>
        by_cases h : m = top <;> simp [mountStack, h, ih]
    | cmdE c b => simpa [mountStack] using ih stk
    | nspawnE c b => simpa [mountStack] using ih stk
    | mkdirE p => simpa [mountStack] using ih stk
    | writeE p c => simpa [mountStack] using ih stk
    | mountCallE a b c d => simpa [mountStack] using ih stk

/-- The computation's trace leaves any mount stack unchanged. -/
def NeutralM {α : Type} (x : M α) : Prop :=
  ∀ s stk, mountStack stk (x s).1 = some stk

/-- The computation's trace pushes exactly the mount point `m`. -/
def PushM {α : Type} (m : String) (x : M α) : Prop :=
  ∀ s stk, mountStack stk (x s).1 = some (m :: stk)

/-- The computation's trace pops exactly the mount point `m`. -/
def PopM {α : Type} (m : String) (x : M α) : Prop :=
  ∀ s stk, mountStack (m :: stk) (x s).1 = some stk

theorem neutral_mbind {α β : Type} {x : M α} {f : α → M β}
    (hx : NeutralM x) (hf : ∀ a, NeutralM (f a)) : NeutralM (mbind x f) := by
  intro s stk
  unfold mbind
  rcases hxs : x s with ⟨t, s1, r⟩
  have h1 : mountStack stk t = some stk := by
    have := hx s stk; rw [hxs] at this; exact this
  cases r with
  | error e => simpa using h1
  | ok a =>
    rcases hfs : f a s1 with ⟨t2, s2, r2⟩
    have h2 : mountStack stk t2 = some stk := by
      have := hf a s1 stk; rw [hfs] at this; exact this
    simp [hfs, mountStack_append, h1, h2]

theorem push_mbind {α β : Type} {m : String} {x : M α} {f : α → M β}
    (hx : PushM m x) (hf : ∀ a, NeutralM (f a)) : PushM m (mbind x f) := by
  intro s stk
  unfold mbind
  rcases hxs : x s with ⟨t, s1, r⟩
  have h1 : mountStack stk t = some (m :: stk) := by
    have := hx s stk; rw [hxs] at this; exact this
  cases r with
  | error e => exact h1
  | ok a =>
    rcases hfs : f a s1 with ⟨t2, s2, r2⟩
    have h2 : mountStack (m :: stk) t2 = some (m :: stk) := by
      have := hf a s1 (m :: stk); rw [hfs] at this; exact this
    simp [hfs, mountStack_append, h1, h2]

theorem neutral_tryFinally_push_pop {α : Type} {m : String} {body : M α} {fin : M Unit}
    (hb : PushM m body) (hfin : PopM m fin) : NeutralM (tryFinally body fin) := by
  intro s stk
  unfold tryFinally
  rcases hbs : body s with ⟨t, s1, rb⟩
  rcases hfs : fin s1 with ⟨t2, s2, rf⟩
  have h1 : mountStack stk t = some (m :: stk) := by
    have := hb s stk; rw [hbs] at this; exact this
  have h2 : mountStack (m :: stk) t2 = some stk := by
    have := hfin s1 stk; rw [hfs] at this; exact this
  simp [hfs, mountStack_append, h1, h2]

theorem neutral_mret {α : Type} (a : α) : NeutralM (mret a) := by
  intro s stk; simp [mret, mountStack]

theorem neutral_mthrow {α : Type} (e : Err) : NeutralM (mthrow (α := α) e) := by
  intro s stk; simp [mthrow, mountStack]

theorem neutral_run (o : Oracle) (c : String) : NeutralM (run o c) := by
  intro s stk
  unfold run
  cases o.runOut c <;> simp [mountStack]

theorem neutral_nspawn (o : Oracle) (r d f : String) : NeutralM (nspawn o r d f) := by
  intro s stk
  unfold nspawn
  rcases h : o.runOut (nspawnCmdStr d f r) with _ | out <;> simp [h, mountStack]

theorem neutral_massert (b : Bool) (msg : String) : NeutralM (massert b msg) := by
  intro s stk
  cases b <;> simp [massert, mret, mthrow, mountStack]

theorem neutral_pathExists (p : String) : NeutralM (pathExists p) := by
  intro s stk; simp [pathExists, mountStack]

theorem neutral_mkdirs (p : String) : NeutralM (mkdirs p) := by
  intro s stk
  unfold mkdirs
  split <;> simp [mountStack]

theorem neutral_mkdirsOk (p : String) : NeutralM (mkdirsOk p) := by
  intro s stk
  unfold mkdirsOk
  split <;> simp [mountStack]

theorem neutral_writeFile (p c : String) : NeutralM (writeFile p c) := by
  intro s stk; simp [writeFile, mountStack]

theorem push_mount {o : Oracle} {lower upper work mnt : String}
    (hm : (o.runOut (mountCmdStr lower upper work mnt)).isSome)
    (hv : o.fileOk (mnt ++ "/usr/bin/apt") = true) :
    PushM mnt (mount o lower upper work mnt) := by
  intro s stk
  unfold mount mbind run massert mret
  rcases ho : o.runOut (mountCmdStr lower upper work mnt) with _ | out
  · rw [ho] at hm; simp at hm
  · simp [ho, hv, mountStack]

theorem pop_umount (o : Oracle) (m : String) : PopM m (umount o m) := by
  intro s stk
  unfold umount run
  cases o.runOut ("sudo umount " ++ m) <;> simp [mountStack]

theorem neutral_create_l1 (o : Oracle) (conf : Conf) (d : String) :
    NeutralM (create_l1 o conf d) := by
  unfold create_l1
  apply neutral_mbind (neutral_pathExists _)
  intro ex
  cases ex with
  | true => simpa using neutral_mthrow _
  | false =>
    simp only [Bool.false_eq_true, if_false]
    exact neutral_mbind (neutral_mkdirs _) (fun _ =>
      neutral_mbind (neutral_run _ _) (fun _ =>
        neutral_mbind (neutral_massert _ _) (fun _ => neutral_massert _ _)))

theorem neutral_extract (o : Oracle) (d : String) :
    NeutralM (extract_build_dependencies o d) := by
  unfold extract_build_dependencies
  apply neutral_mbind (neutral_nspawn _ _ _ _)
  intro out
  cases fingerprint_of_output o out with
  | error e => exact neutral_mthrow _
  | ok dd => exact neutral_mret _

theorem neutral_create_l2 {o : Oracle} (conf : Conf)
    (l1dir l2dir l2workdir l2mountdir : String) (deps : List (String × String))
    (hm : ∀ l u w m, (o.runOut (mountCmdStr l u w m)).isSome = true)
    (hv : ∀ m, o.fileOk (m ++ "/usr/bin/apt") = true) :
    NeutralM (create_l2 o conf l1dir l2dir l2workdir l2mountdir deps) := by
  unfold create_l2
  apply neutral_mbind (neutral_mkdirs _)
  intro _
  apply neutral_mbind (neutral_mkdirs _)
  intro _
  apply neutral_mbind (neutral_mkdirs _)
  intro _
  apply neutral_tryFinally_push_pop (m := l2mountdir) ?_ (pop_umount o l2mountdir)
  apply push_mbind (push_mount (hm _ _ _ _) (hv _))
  intro _
  apply neutral_mbind (neutral_nspawn _ _ _ _)
  intro out
  cases parse_build_deps out with
  | error e => exact neutral_mthrow _
  | ok deps2 => exact neutral_writeFile _ _

theorem neutral_buildL3Phase {o : Oracle} (conf : Conf)
    (l2mountdir l3dir l3workdir l3mountdir : String)
    (hm : ∀ l u w m, (o.runOut (mountCmdStr l u w m)).isSome = true)
    (hv : ∀ m, o.fileOk (m ++ "/usr/bin/apt") = true) :
    NeutralM (buildL3Phase o conf l2mountdir l3dir l3workdir l3mountdir) := by
  unfold buildL3Phase
  apply neutral_tryFinally_push_pop (m := l3mountdir) ?_ (pop_umount o l3mountdir)
  apply push_mbind (push_mount (hm _ _ _ _) (hv _))
  intro _
  exact neutral_mbind (neutral_run _ _) (fun _ =>
    neutral_mbind (neutral_nspawn _ _ _ _) (fun _ => neutral_mret _))

theorem neutral_buildL2Phase {o : Oracle} (conf : Conf)
    (l1dir l2dir l2workdir l2mountdir l3dir l3workdir l3mountdir : String)
    (hm : ∀ l u w m, (o.runOut (mountCmdStr l u w m)).isSome = true)
    (hv : ∀ m, o.fileOk (m ++ "/usr/bin/apt") = true) :
    NeutralM (buildL2Phase o conf l1dir l2dir l2workdir l2mountdir l3dir l3workdir
      l3mountdir) := by
  unfold buildL2Phase
  apply neutral_tryFinally_push_pop (m := l2mountdir) ?_ (pop_umount o l2mountdir)
  apply push_mbind (push_mount (hm _ _ _ _) (hv _))
  intro _
  apply neutral_mbind (neutral_pathExists _)
  intro l3ex
  apply neutral_mbind ?_ (fun _ => neutral_buildL3Phase conf _ _ _ _ hm hv)
  cases l3ex with
  | true => simpa using neutral_mret _
  | false =>
    simp only [Bool.false_eq_true, if_false]
    exact neutral_mbind (neutral_mkdirs _) (fun _ =>
      neutral_mbind (neutral_mkdirs _) (fun _ => neutral_mkdirs _))

theorem neutral_exportLoop (o : Oracle) (l3dir dest : String) (l : List String) :
    NeutralM (exportLoop o l3dir dest l) := by
  induction l with
  | nil => exact neutral_mret _
  | cons e rest ih => exact neutral_mbind (neutral_run _ _) (fun _ => ih)

theorem neutral_buildExport (o : Oracle) (conf : Conf) (l3dir : String) :
    NeutralM (buildExport o conf l3dir) := by
  unfold buildExport
  split
  · exact neutral_exportLoop _ _ _ _
  · exact neutral_mret _

theorem neutral_buildL2Sel {o : Oracle} (conf : Conf) (l1dir : String)
    (dd : List (String × String) × String)
    (hm : ∀ l u w m, (o.runOut (mountCmdStr l u w m)).isSome = true)
    (hv : ∀ m, o.fileOk (m ++ "/usr/bin/apt") = true) :
    NeutralM (buildL2Sel o conf l1dir dd) := by
  unfold buildL2Sel
  dsimp only
  apply neutral_mbind (neutral_pathExists _)
  intro l2ex
  apply neutral_mbind ?_ ?_
  · cases l2ex with
    | true => simpa using neutral_mret _
    | false =>
      simp only [Bool.false_eq_true, if_false]
      exact neutral_create_l2 _ _ _ _ _ _ hm hv
  intro _
  exact neutral_mbind (neutral_buildL2Phase _ _ _ _ _ _ _ _ hm hv)
    (fun _ => neutral_buildExport _ _ _)

theorem neutral_buildFromExtract {o : Oracle} (conf : Conf) (l1dir : String)
    (hm : ∀ l u w m, (o.runOut (mountCmdStr l u w m)).isSome = true)
    (hv : ∀ m, o.fileOk (m ++ "/usr/bin/apt") = true) :
    NeutralM (buildFromExtract o conf l1dir) := by
  unfold buildFromExtract
  exact neutral_mbind (neutral_extract _ _)
    (fun dd => neutral_buildL2Sel conf l1dir dd hm hv)

theorem neutral_build {o : Oracle} (conf : Conf)
    (hm : ∀ l u w m, (o.runOut (mountCmdStr l u w m)).isSome = true)
    (hv : ∀ m, o.fileOk (m ++ "/usr/bin/apt") = true) :
    NeutralM (build o conf) := by
  unfold build
  apply neutral_mbind (neutral_pathExists _)
  intro l1ex
  apply neutral_mbind ?_ ?_
  · cases l1ex with
    | true => simpa using neutral_mret _
    | false =>
      simp only [Bool.false_eq_true, if_false]
      exact neutral_create_l1 _ _ _
  intro _
  exact neutral_buildFromExtract conf _ hm hv

/-! ## Claim C1: mount/unmount balance -/

/-- **C1 (amended).** For every build session in which every attempted
overlay-mount invocation succeeds (the mount command exits zero and its
sentinel verification passes), the unmount calls exactly balance the
successful mount calls in strict reverse (innermost-first) order: replaying
the session trace as a stack machine — successful mounts push, unmount
calls must pop the innermost live mount point — consumes the whole trace
and ends with an empty stack.  This holds whatever else fails during the
session (bootstrap, dependency resolution, parsing, the package build, or
the unmount commands themselves), and the trace is complete before the
session's error is surfaced to the caller. -/
theorem c1_mount_unmount_balance (o : Oracle) (conf : Conf) (s : St)
    (hm : ∀ l u w m, (o.runOut (mountCmdStr l u w m)).isSome = true)
    (hv : ∀ m, o.fileOk (m ++ "/usr/bin/apt") = true) :
    mountStack [] (build o conf s).1 = some [] :=
  neutral_build conf hm hv s []

/-- Witness for `c1_mount_unmount_balance`: the all-succeeding world. -/
theorem c1_mount_unmount_balance_witness :
    (∀ l u w m, (oW.runOut (mountCmdStr l u w m)).isSome = true) ∧
    (∀ m, oW.fileOk (m ++ "/usr/bin/apt") = true) ∧
    mountStack [] (build oW confW ⟨[]⟩).1 = some [] :=
  ⟨fun _ _ _ _ => rfl, fun _ => rfl,
    c1_mount_unmount_balance oW confW ⟨[]⟩ (fun _ _ _ _ => rfl) (fun _ => rfl)⟩

set_option maxRecDepth 4000 in
set_option maxHeartbeats 1000000 in
/-- **C1 counterexample.** The claim as stated — for *every* session the
unmount count equals the successful-mount count — is false on the code: in
a session whose L2 overlay-mount command fails, the `finally` block of
`build` still calls `umount` on the never-mounted mount point, so the trace
has one unmount call and zero successful mounts, and the stack replay
rejects it. -/
theorem c1_counterexample :
    umountCalls (build oMountFail confW stAllLayers).1 = 1 ∧
    mountedCount (build oMountFail confW stAllLayers).1 = 0 ∧
    mountStack [] (build oMountFail confW stAllLayers).1 = none := by
  decide

/-! ## Claim C8: `update` frame property -/

/-- **C8.** `update_l1` refreshes the given L1 in place and nothing else:
it leaves the embedded filesystem state untouched (no dir or file it
manages is created, written or removed — in particular every persisted L2
layer's content, work and mount dirs and manifests are unchanged), and
every event of its trace is one of the two container invocations rooted at
the given L1 dir (`apt-get update` / `dist-upgrade` with `-D l1dir`).  No
dependent L2 layer is invalidated or rebuilt. -/
theorem c8_update_frame (o : Oracle) (l1dir : String) (s : St) :
    ((update_l1 o l1dir) s).2.1 = s ∧
    ∀ e ∈ ((update_l1 o l1dir) s).1,
      (e = Ev.nspawnE (nspawnCmdStr "" "" (updateCmd1 l1dir)) true ∨
       e = Ev.nspawnE (nspawnCmdStr "" "" (updateCmd1 l1dir)) false ∨
       e = Ev.nspawnE (nspawnCmdStr "" "" (updateCmd2 l1dir)) true ∨
       e = Ev.nspawnE (nspawnCmdStr "" "" (updateCmd2 l1dir)) false) := by
  unfold update_l1 nspawn mbind mret
  rcases h1 : o.runOut (nspawnCmdStr "" "" (updateCmd1 l1dir)) with _ | o1 <;>
    rcases h2 : o.runOut (nspawnCmdStr "" "" (updateCmd2 l1dir)) with _ | o2 <;>
      simp [h1, h2]

/-- Witness for `c8_update_frame` (state preservation at a concrete
session). -/
theorem c8_update_frame_witness :
    ((update_l1 oW "/var/cache/conbuilder/l1/sid") ⟨["x"]⟩).2.1 = (⟨["x"]⟩ : St) :=
  (c8_update_frame oW "/var/cache/conbuilder/l1/sid" ⟨["x"]⟩).1

/-! ## Event-inventory infrastructure -/

/-- Every event of the computation's trace satisfies `P`. -/
def EvInv (P : Ev → Prop) {α : Type} (x : M α) : Prop :=
  ∀ s, ∀ e ∈ (x s).1, P e

theorem evInv_mbind {P : Ev → Prop} {α β : Type} {x : M α} {f : α → M β}
    (hx : EvInv P x) (hf : ∀ a, EvInv P (f a)) : EvInv P (mbind x f) := by
  intro s e he
  unfold mbind at he
  rcases hxs : x s with ⟨t, s1, r⟩
  rw [hxs] at he
  have hxt : ∀ e ∈ t, P e := by
    intro e2 he2; have := hx s e2; rw [hxs] at this; exact this he2
  cases r with
  | error er => exact hxt e (by simpa using he)
  | ok a =>
    dsimp only at he
    rcases hfs : f a s1 with ⟨t2, s2, r2⟩
    rw [hfs] at he
    dsimp only at he
    simp only [List.mem_append] at he
    rcases he with he | he
    · exact hxt e he
    · have := hf a s1 e; rw [hfs] at this; exact this he

theorem evInv_tryFinally {P : Ev → Prop} {α : Type} {body : M α} {fin : M Unit}
    (hb : EvInv P body) (hf : EvInv P fin) : EvInv P (tryFinally body fin) := by
  intro s e he
  unfold tryFinally at he
  rcases hbs : body s with ⟨t, s1, rb⟩
  rw [hbs] at he
  dsimp only at he
  rcases hfs : fin s1 with ⟨t2, s2, rf⟩
  rw [hfs] at he
  dsimp only at he
  simp only [List.mem_append] at he
  rcases he with he | he
  · have := hb s e; rw [hbs] at this; exact this he
  · have := hf s1 e; rw [hfs] at this; exact this he

theorem evInv_mret {P : Ev → Prop} {α : Type} (a : α) : EvInv P (mret a) := by
  intro s e he; simp [mret] at he

theorem evInv_mthrow {P : Ev → Prop} {α : Type} (er : Err) :
    EvInv P (mthrow (α := α) er) := by
  intro s e he; simp [mthrow] at he

theorem evInv_run {P : Ev → Prop} {o : Oracle} {c : String}
    (h : ∀ b, P (Ev.cmdE c b)) : EvInv P (run o c) := by
  intro s e he
  unfold run at he
  rcases ho : o.runOut c with _ | out <;> rw [ho] at he <;> simp at he <;>
    rw [he] <;> exact h _

theorem evInv_nspawn {P : Ev → Prop} {o : Oracle} {r d f : String}
    (h : ∀ b, P (Ev.nspawnE (nspawnCmdStr d f r) b)) : EvInv P (nspawn o r d f) := by
  intro s e he
  unfold nspawn at he
  dsimp only at he
  rcases ho : o.runOut (nspawnCmdStr d f r) with _ | out <;> rw [ho] at he <;>
    simp at he <;> rw [he] <;> exact h _

theorem evInv_massert {P : Ev → Prop} (b : Bool) (msg : String) :
    EvInv P (massert b msg) := by
  intro s e he; cases b <;> simp [massert, mret, mthrow] at he

theorem evInv_pathExists {P : Ev → Prop} (p : String) : EvInv P (pathExists p) := by
  intro s e he; simp [pathExists] at he

theorem evInv_mkdirs {P : Ev → Prop} {p : String} (h : P (Ev.mkdirE p)) :
    EvInv P (mkdirs p) := by
  intro s e he
  unfold mkdirs at he
  split at he <;> simp at he
  rw [he]; exact h

theorem evInv_mkdirsOk {P : Ev → Prop} {p : String} (h : P (Ev.mkdirE p)) :
    EvInv P (mkdirsOk p) := by
  intro s e he
  unfold mkdirsOk at he
  split at he <;> simp at he
  rw [he]; exact h

theorem evInv_writeFile {P : Ev → Prop} {p c : String} (h : P (Ev.writeE p c)) :
    EvInv P (writeFile p c) := by
  intro s e he
  simp [writeFile] at he
  rw [he]; exact h

theorem evInv_mount {P : Ev → Prop} {o : Oracle} {l u w m : String}
    (h1 : P (Ev.mountCallE l u w m)) (h2 : ∀ b, P (Ev.cmdE (mountCmdStr l u w m) b))
    (h3 : P (Ev.mountedE m)) : EvInv P (mount o l u w m) := by
  intro s e he
  unfold mount mbind run massert mret at he
  rcases ho : o.runOut (mountCmdStr l u w m) with _ | out <;> rw [ho] at he
  · simp at he
    rcases he with he | he
    · rw [he]; exact h1
    · rw [he]; exact h2 _
  · by_cases hv : o.fileOk (m ++ "/usr/bin/apt")
    · simp [hv, mthrow] at he
      rcases he with he | he | he
      · rw [he]; exact h1
      · rw [he]; exact h2 _
      · rw [he]; exact h3
    · simp [hv, mthrow] at he
      rcases he with he | he
      · rw [he]; exact h1
      · rw [he]; exact h2 _

theorem evInv_umount {P : Ev → Prop} {o : Oracle} {p : String}
    (h1 : P (Ev.umountCallE p)) (h2 : ∀ b, P (Ev.cmdE ("sudo umount " ++ p) b)) :
    EvInv P (umount o p) := by
  intro s e he
  unfold umount run at he
  rcases ho : o.runOut ("sudo umount " ++ p) with _ | out <;> rw [ho] at he
  · simp at he
    rcases he with he | he
    · rw [he]; exact h1
    · rw [he]; exact h2 _
  · simp at he
    rcases he with he | he
    · rw [he]; exact h1
    · rw [he]; exact h2 _

/-! ## Claim C9: `install` runs an interactive shell -/

/-- The event predicate: any namespace invocation in the trace runs exactly
the command `target`. -/
def OnlyNspawn (target : String) (e : Ev) : Prop :=
  match e with
  | Ev.nspawnE c _ => c = target
  | _ => True

theorem onlyNspawn_create_l1 (target : String) (o : Oracle) (conf : Conf) (d : String) :
    EvInv (OnlyNspawn target) (create_l1 o conf d) := by
  unfold create_l1
  refine evInv_mbind (evInv_pathExists _) ?_
  intro ex
  cases ex with
  | true => simpa using evInv_mthrow _
  | false =>
    simp only [Bool.false_eq_true, if_false]
    exact evInv_mbind (evInv_mkdirs trivial) (fun _ =>
      evInv_mbind (evInv_run (fun _ => trivial)) (fun _ =>
        evInv_mbind (evInv_massert _ _) (fun _ => evInv_massert _ _)))

theorem onlyNspawn_copyLoop (target : String) (o : Oracle) (d : String)
    (l : List String) : EvInv (OnlyNspawn target) (copyLoop o d l) := by
  induction l with
  | nil => exact evInv_mret _
  | cons fn rest ih =>
    exact evInv_mbind (evInv_run (fun _ => trivial)) (fun _ => ih)

/-- **C9.** Every namespace command `install` actually executes is the
interactive shell `-D <l2i mount point> -- /bin/bash`: the package-install
command string the source constructs is discarded (reassigned before use),
so no `apt install` — and no package installation at all — runs inside the
namespace on any invocation. -/
theorem c9_install_runs_shell (o : Oracle) (conf : Conf) (s : St) (c : String) (b : Bool)
    (h : Ev.nspawnE c b ∈ (install o conf s).1) :
    c = nspawnCmdStr "" ""
      (installBashCmd (conf.cachedir ++ "/l2i/overlay_mount/" ++ "foo")) := by
  set target := nspawnCmdStr "" ""
    (installBashCmd (conf.cachedir ++ "/l2i/overlay_mount/" ++ "foo")) with htarget
  have inv : EvInv (OnlyNspawn target) (install o conf) := by
    unfold install
    dsimp only
    refine evInv_mbind (evInv_pathExists _) ?_
    intro l1ex
    refine evInv_mbind ?_ ?_
    · cases l1ex with
      | true => simpa using evInv_mret _
      | false =>
        simp only [Bool.false_eq_true, if_false]
        exact onlyNspawn_create_l1 _ _ _ _
    intro _
    refine evInv_mbind (evInv_mkdirsOk trivial) ?_
    intro _
    refine evInv_mbind (evInv_mkdirsOk trivial) ?_
    intro _
    refine evInv_mbind (evInv_mkdirsOk trivial) ?_
    intro _
    refine evInv_tryFinally ?_ (evInv_umount trivial (fun _ => trivial))
    refine evInv_mbind (evInv_mount trivial (fun _ => trivial) trivial) ?_
    intro _
    refine evInv_mbind (onlyNspawn_copyLoop _ _ _ _) ?_
    intro _
    exact evInv_mbind (evInv_nspawn (fun _ => rfl)) (fun _ => evInv_mret _)
  exact inv s _ h

/-- Witness for `c9_install_runs_shell` at a concrete session. -/
theorem c9_install_runs_shell_witness :
    (Ev.nspawnE
        (nspawnCmdStr "" "" (installBashCmd ("/var/cache/conbuilder" ++ "/l2i/overlay_mount/" ++ "foo")))
        true ∈ (install oW confW stAllLayers).1) ∧
    nspawnCmdStr "" "" (installBashCmd ("/var/cache/conbuilder" ++ "/l2i/overlay_mount/" ++ "foo"))
      = nspawnCmdStr "" "" (installBashCmd (confW.cachedir ++ "/l2i/overlay_mount/" ++ "foo")) :=
  ⟨by decide, c9_install_runs_shell oW confW stAllLayers _ true (by decide)⟩

/-! ## Claim C2: fingerprint determinism under line reordering -/

/-- A line the parser accepts (either ignored or yielding a pair). -/
def lineOk (l : String) : Bool :=
  match parseDepLine l with
  | .ok _ => true
  | .error _ => false

/-- The pair a line contributes (`none` for ignored lines). -/
def lineItem (l : String) : Option (String × String) :=
  match parseDepLine l with
  | .ok v => v
  | .error _ => none

/-- One step of the `set.add` accumulation. -/
def insLine (acc : List (String × String)) (p : String × String) :
    List (String × String) :=
  if acc.contains p then acc else acc ++ [p]

/-- The `set.add` accumulation over a list of parsed items. -/
def dedupInto (acc : List (String × String)) (items : List (String × String)) :
    List (String × String) :=
  items.foldl insLine acc

theorem depsFold_ok (out : List String) (acc : List (String × String))
    (h : ∀ l ∈ out, lineOk l = true) :
    depsFold out acc = Except.ok (dedupInto acc (out.filterMap lineItem)) := by
  induction out generalizing acc with
  | nil => simp [depsFold, dedupInto]
  | cons l rest ih =>
    have hl : lineOk l = true := h l (List.mem_cons_self l rest)
    have hrest : ∀ l2 ∈ rest, lineOk l2 = true := fun l2 h2 => h l2 (List.mem_cons_of_mem _ h2)
    unfold depsFold
    unfold lineOk at hl
    rcases hp : parseDepLine l with e | v
    · rw [hp] at hl; simp at hl
    · rw [hp] at hl
      cases v with
      | none =>
        have : lineItem l = none := by unfold lineItem; rw [hp]
        simp [List.filterMap_cons, this, ih _ hrest]
      | some p =>
        have : lineItem l = some p := by unfold lineItem; rw [hp]
        simp only [List.filterMap_cons, this, ih _ hrest, dedupInto, List.foldl_cons]
        rfl

theorem depsFold_err (out : List String) (acc : List (String × String))
    (h : ¬ ∀ l ∈ out, lineOk l = true) :
    ∃ e, depsFold out acc = Except.error e := by
  induction out generalizing acc with
  | nil => exact absurd (by intro l hl; simp at hl) h
  | cons l rest ih =>
    unfold depsFold
    rcases hp : parseDepLine l with e | v
    · exact ⟨e, rfl⟩
    · have hl : lineOk l = true := by unfold lineOk; rw [hp]
      have hrest : ¬ ∀ l2 ∈ rest, lineOk l2 = true := by
        intro hall
        exact h (by
          intro l2 hl2
          rcases List.mem_cons.mp hl2 with rfl | hmem
          · exact hl
          · exact hall l2 hmem)
      cases v with
      | none => exact ih _ hrest
      | some p => exact ih _ hrest

theorem dedupInto_nodup (items : List (String × String))
    (acc : List (String × String)) (hacc : acc.Nodup) : (dedupInto acc items).Nodup := by
  induction items generalizing acc with
  | nil => simpa [dedupInto]
  | cons p rest ih =>
    simp only [dedupInto, List.foldl_cons]
    apply ih
    unfold insLine
    split
    · exact hacc
    · next hc =>
      have : p ∉ acc := by simpa using hc
      simp [List.nodup_append, hacc, this]

theorem dedupInto_mem (items : List (String × String)) (acc : List (String × String))
    (a : String × String) : a ∈ dedupInto acc items ↔ a ∈ acc ∨ a ∈ items := by
  induction items generalizing acc with
  | nil => simp [dedupInto]
  | cons p rest ih =>
    simp only [dedupInto, List.foldl_cons] at ih ⊢
    rw [ih]
    unfold insLine
    split
    · next hc =>
      have hp : p ∈ acc := by simpa using hc
      rw [List.mem_cons]
      constructor
      · rintro (h | h)
        · exact Or.inl h
        · exact Or.inr (Or.inr h)
      · rintro (h | h | h)
        · exact Or.inl h
        · exact Or.inl (h ▸ hp)
        · exact Or.inr h
    · rw [List.mem_append, List.mem_singleton, List.mem_cons]
      constructor
      · rintro ((h | h) | h)
        · exact Or.inl h
        · exact Or.inr (Or.inl h)
        · exact Or.inr (Or.inr h)
      · rintro (h | h | h)
        · exact Or.inl (Or.inl h)
        · exact Or.inl (Or.inr h)
        · exact Or.inr h

instance : IsTrans (String × String) pairLe := by
  constructor
  intro a b c hab hbc
  rcases hab with h | ⟨he, h2⟩ <;> rcases hbc with h' | ⟨he', h2'⟩
  · exact Or.inl (lt_trans h h')
  · exact Or.inl (by rw [← he']; exact h)
  · exact Or.inl (by rw [he]; exact h')
  · exact Or.inr ⟨he.trans he', le_trans h2 h2'⟩

instance : IsAntisymm (String × String) pairLe := by
  constructor
  intro a b hab hba
  rcases hab with h | ⟨he, h2⟩ <;> rcases hba with h' | ⟨he', h2'⟩
  · exact absurd h' (lt_asymm h)
  · exact absurd (by rw [he'] at h; exact h) (lt_irrefl _)
  · exact absurd (by rw [he] at h'; exact h') (lt_irrefl _)
  · exact Prod.ext_iff.mpr ⟨he, le_antisymm h2 h2'⟩

instance : IsTotal (String × String) pairLe := by
  constructor
  intro a b
  rcases lt_trichotomy a.1 b.1 with h | h | h
  · exact Or.inl (Or.inl h)
  · rcases le_total a.2 b.2 with h2 | h2
    · exact Or.inl (Or.inr ⟨h, h2⟩)
    · exact Or.inr (Or.inr ⟨h.symm, h2⟩)
  · exact Or.inr (Or.inl h)

theorem pysorted_eq_of_perm {l1 l2 : List (String × String)} (h : l1.Perm l2) :
    pysorted l1 = pysorted l2 := by
  apply List.eq_of_perm_of_sorted
    (((List.perm_insertionSort pairLe l1).trans h).trans
      (List.perm_insertionSort pairLe l2).symm)
    (List.sorted_insertionSort pairLe l1) (List.sorted_insertionSort pairLe l2)

theorem parse_build_deps_perm (out1 out2 : List String) (hp : out1.Perm out2) :
    (parse_build_deps out1).toOption = (parse_build_deps out2).toOption := by
  by_cases hall : ∀ l ∈ out1, lineOk l = true
  · have hall2 : ∀ l ∈ out2, lineOk l = true := fun l hl => hall l (hp.mem_iff.mpr hl)
    have d1 := depsFold_ok out1 [] hall
    have d2 := depsFold_ok out2 [] hall2
    have hpi : (out1.filterMap lineItem).Perm (out2.filterMap lineItem) :=
      hp.filterMap lineItem
    have hperm : (dedupInto [] (out1.filterMap lineItem)).Perm
        (dedupInto [] (out2.filterMap lineItem)) := by
      rw [List.perm_ext_iff_of_nodup (dedupInto_nodup _ _ List.nodup_nil)
        (dedupInto_nodup _ _ List.nodup_nil)]
      intro a
      rw [dedupInto_mem, dedupInto_mem]
      simp [hpi.mem_iff]
    simp [parse_build_deps, d1, d2, Except.map, pysorted_eq_of_perm hperm]
  · have hall2 : ¬ ∀ l ∈ out2, lineOk l = true :=
      fun h => hall (fun l hl => h l (hp.mem_iff.mp hl))
    obtain ⟨e1, he1⟩ := depsFold_err out1 [] hall
    obtain ⟨e2, he2⟩ := depsFold_err out2 [] hall2
    simp [parse_build_deps, he1, he2, Except.map, Except.toOption]

/-- **C2.** The computed fingerprint is invariant under any reordering of
the raw tool-output lines: for every two line lists that are permutations
of each other, parsing followed by deduplication, sorting and hashing
(`fingerprint_of_output`, the pure tail of `extract_build_dependencies`)
yields the same dependency list and the same fingerprint — and the same
success/failure status (`Except.toOption` equality). -/
theorem c2_fingerprint_perm (o : Oracle) (out1 out2 : List String)
    (hp : out1.Perm out2) :
    (fingerprint_of_output o out1).toOption = (fingerprint_of_output o out2).toOption := by
  have key := parse_build_deps_perm out1 out2 hp
  unfold fingerprint_of_output
  rcases h1 : parse_build_deps out1 with e1 | d1 <;>
    rcases h2 : parse_build_deps out2 with e2 | d2
  · simp [Except.map, Except.toOption]
  · rw [h1, h2] at key; simp [Except.toOption] at key
  · rw [h1, h2] at key; simp [Except.toOption] at key
  · rw [h1, h2] at key
    simp [Except.toOption] at key
    subst key
    rfl

/-- Witness for `c2_fingerprint_perm` on a concrete two-line permutation. -/
theorem c2_fingerprint_perm_witness :
    (List.Perm ["Inst b (2 x) y", "Inst a (1 x) y"] ["Inst a (1 x) y", "Inst b (2 x) y"]) ∧
    (fingerprint_of_output oW ["Inst b (2 x) y", "Inst a (1 x) y"]).toOption
      = (fingerprint_of_output oW ["Inst a (1 x) y", "Inst b (2 x) y"]).toOption :=
  ⟨by decide, c2_fingerprint_perm oW _ _ (by decide)⟩

/-! ## Directory-creation discipline

`MkdirDisc x` bundles four facts about a computation: the managed path set
only grows (nothing is ever deleted), a `mkdirE p` event is never emitted
for a path that already exists, any path whose `mkdirE` appears exists
afterwards, and each path's `mkdirE` appears at most once. -/
def MkdirDisc {α : Type} (x : M α) : Prop :=
  ∀ s,
    (∀ p, p ∈ s.fs → p ∈ ((x s).2.1).fs) ∧
    (∀ p, p ∈ s.fs → Ev.mkdirE p ∉ (x s).1) ∧
    (∀ p, Ev.mkdirE p ∈ (x s).1 → p ∈ ((x s).2.1).fs) ∧
    (∀ p, ((x s).1.count (Ev.mkdirE p)) ≤ 1)

theorem mkdirDisc_mbind {α β : Type} {x : M α} {f : α → M β}
    (hx : MkdirDisc x) (hf : ∀ a, MkdirDisc (f a)) : MkdirDisc (mbind x f) := by
  intro s
  unfold mbind
  rcases hxs : x s with ⟨t, s1, r⟩
  obtain ⟨x1, x2, x3, x4⟩ := hx s
  rw [hxs] at x1 x2 x3 x4
  cases r with
  | error e => exact ⟨x1, x2, x3, x4⟩
  | ok a =>
    obtain ⟨f1, f2, f3, f4⟩ := hf a s1
    dsimp only
    refine ⟨?_, ?_, ?_, ?_⟩
    · intro p hp
      exact f1 p (x1 p hp)
    · intro p hp
      simp only [List.mem_append]
      rintro (h | h)
      · exact x2 p hp h
      · exact f2 p (x1 p hp) h
    · intro p hp
      rcases List.mem_append.mp hp with h | h
      · exact f1 p (x3 p h)
      · exact f3 p h
    · intro p
      rw [List.count_append]
      by_cases hm : Ev.mkdirE p ∈ t
      · have h2 : ((f a s1).1).count (Ev.mkdirE p) = 0 := by
          rw [List.count_eq_zero]
          exact f2 p (x3 p hm)
        have h1 : t.count (Ev.mkdirE p) ≤ 1 := x4 p
        omega
      · have h0 : t.count (Ev.mkdirE p) = 0 := by
          rw [List.count_eq_zero]; exact hm
        rw [h0]
        simpa using f4 p

theorem mkdirDisc_tryFinally {α : Type} {body : M α} {fin : M Unit}
    (hb : MkdirDisc body) (hf : MkdirDisc fin) : MkdirDisc (tryFinally body fin) := by
  intro s
  unfold tryFinally
  rcases hbs : body s with ⟨t, s1, rb⟩
  obtain ⟨x1, x2, x3, x4⟩ := hb s
  rw [hbs] at x1 x2 x3 x4
  obtain ⟨f1, f2, f3, f4⟩ := hf s1
  dsimp only
  refine ⟨?_, ?_, ?_, ?_⟩
  · intro p hp
    exact f1 p (x1 p hp)
  · intro p hp
    simp only [List.mem_append]
    rintro (h | h)
    · exact x2 p hp h
    · exact f2 p (x1 p hp) h
  · intro p hp
    rcases List.mem_append.mp hp with h | h
    · exact f1 p (x3 p h)
    · exact f3 p h
  · intro p
    rw [List.count_append]
    by_cases hm : Ev.mkdirE p ∈ t
    · have h2 : ((fin s1).1).count (Ev.mkdirE p) = 0 := by
        rw [List.count_eq_zero]
        exact f2 p (x3 p hm)
      have h1 : t.count (Ev.mkdirE p) ≤ 1 := x4 p
      omega
    · have h0 : t.count (Ev.mkdirE p) = 0 := by
        rw [List.count_eq_zero]; exact hm
      rw [h0]
      simpa using f4 p

theorem mkdirDisc_mret {α : Type} (a : α) : MkdirDisc (mret a) := by
  intro s
  refine ⟨fun p hp => hp, ?_, ?_, ?_⟩ <;> simp [mret]

theorem mkdirDisc_mthrow {α : Type} (e : Err) : MkdirDisc (mthrow (α := α) e) := by
  intro s
  refine ⟨fun p hp => hp, ?_, ?_, ?_⟩ <;> simp [mthrow]

theorem mkdirDisc_run (o : Oracle) (c : String) : MkdirDisc (run o c) := by
  intro s
  unfold run
  rcases h : o.runOut c with _ | out <;>
    exact ⟨fun p hp => hp, by simp, by simp, by simp⟩

theorem mkdirDisc_nspawn (o : Oracle) (r d f : String) : MkdirDisc (nspawn o r d f) := by
  intro s
  unfold nspawn
  dsimp only
  rcases h : o.runOut (nspawnCmdStr d f r) with _ | out <;>
    exact ⟨fun p hp => hp, by simp, by simp, by simp⟩

theorem mkdirDisc_massert (b : Bool) (msg : String) : MkdirDisc (massert b msg) := by
  cases b <;> simp [massert] <;> first
    | exact mkdirDisc_mthrow _
    | exact mkdirDisc_mret _

theorem mkdirDisc_pathExists (p : String) : MkdirDisc (pathExists p) := by
  intro s
  exact ⟨fun q hq => hq, by simp [pathExists], by simp [pathExists], by simp [pathExists]⟩

theorem mkdirDisc_mkdirs (p : String) : MkdirDisc (mkdirs p) := by
  intro s
  unfold mkdirs
  split
  · next hc =>
    exact ⟨fun q hq => hq, by simp, by simp, by simp⟩
  · next hc =>
    have hnp : p ∉ s.fs := by simpa using hc
    refine ⟨?_, ?_, ?_, ?_⟩
    · intro q hq
      exact List.mem_cons_of_mem _ hq
    · intro q hq
      simp only [List.mem_singleton]
      intro h
      rw [Ev.mkdirE.inj h] at hq
      exact hnp hq
    · intro q hq
      simp only [List.mem_singleton] at hq
      rw [Ev.mkdirE.inj hq]
      exact List.mem_cons_self _ _
    · intro q
      simp [List.count_singleton]
      split <;> omega

theorem mkdirDisc_mkdirsOk (p : String) : MkdirDisc (mkdirsOk p) := by
  intro s
  unfold mkdirsOk
  split
  · next hc =>
    exact ⟨fun q hq => hq, by simp, by simp, by simp⟩
  · next hc =>
    have hnp : p ∉ s.fs := by simpa using hc
    refine ⟨?_, ?_, ?_, ?_⟩
    · intro q hq
      exact List.mem_cons_of_mem _ hq
    · intro q hq
      simp only [List.mem_singleton]
      intro h
      rw [Ev.mkdirE.inj h] at hq
      exact hnp hq
    · intro q hq
      simp only [List.mem_singleton] at hq
      rw [Ev.mkdirE.inj hq]
      exact List.mem_cons_self _ _
    · intro q
      simp [List.count_singleton]
      split <;> omega

theorem mkdirDisc_writeFile (p c : String) : MkdirDisc (writeFile p c) := by
  intro s
  refine ⟨?_, ?_, ?_, ?_⟩
  · intro q hq
    exact List.mem_cons_of_mem _ hq
  · intro q hq
    simp [writeFile]
  · intro q hq
    simp [writeFile] at hq
  · intro q
    simp [writeFile]

theorem mkdirDisc_mount (o : Oracle) (l u w m : String) : MkdirDisc (mount o l u w m) := by
  intro s
  unfold mount mbind run massert mret
  dsimp only
  rcases ho : o.runOut (mountCmdStr l u w m) with _ | out
  · exact ⟨fun q hq => hq, by simp, by simp, by simp⟩
  · by_cases hv : o.fileOk (m ++ "/usr/bin/apt") <;> simp only [hv, if_true, if_false] <;>
      exact ⟨fun q hq => hq, by simp [mthrow], by simp [mthrow], by simp [mthrow]⟩

theorem mkdirDisc_umount (o : Oracle) (p : String) : MkdirDisc (umount o p) := by
  intro s
  unfold umount run
  rcases ho : o.runOut ("sudo umount " ++ p) with _ | out <;>
    exact ⟨fun q hq => hq, by simp, by simp, by simp⟩

theorem mkdirDisc_create_l1 (o : Oracle) (conf : Conf) (d : String) :
    MkdirDisc (create_l1 o conf d) := by
  unfold create_l1
  refine mkdirDisc_mbind (mkdirDisc_pathExists _) ?_
  intro ex
  cases ex with
  | true => simpa using mkdirDisc_mthrow _
  | false =>
    simp only [Bool.false_eq_true, if_false]
    exact mkdirDisc_mbind (mkdirDisc_mkdirs _) (fun _ =>
      mkdirDisc_mbind (mkdirDisc_run _ _) (fun _ =>
        mkdirDisc_mbind (mkdirDisc_massert _ _) (fun _ => mkdirDisc_massert _ _)))

theorem mkdirDisc_extract (o : Oracle) (d : String) :
    MkdirDisc (extract_build_dependencies o d) := by
  unfold extract_build_dependencies
  refine mkdirDisc_mbind (mkdirDisc_nspawn _ _ _ _) ?_
  intro out
  cases fingerprint_of_output o out with
  | error e => exact mkdirDisc_mthrow _
  | ok dd => exact mkdirDisc_mret _

theorem mkdirDisc_create_l2 (o : Oracle) (conf : Conf)
    (l1dir l2dir l2workdir l2mountdir : String) (deps : List (String × String)) :
    MkdirDisc (create_l2 o conf l1dir l2dir l2workdir l2mountdir deps) := by
  unfold create_l2
  refine mkdirDisc_mbind (mkdirDisc_mkdirs _) ?_
  intro _
  refine mkdirDisc_mbind (mkdirDisc_mkdirs _) ?_
  intro _
  refine mkdirDisc_mbind (mkdirDisc_mkdirs _) ?_
  intro _
  refine mkdirDisc_tryFinally ?_ (mkdirDisc_umount _ _)
  refine mkdirDisc_mbind (mkdirDisc_mount _ _ _ _ _) ?_
  intro _
  refine mkdirDisc_mbind (mkdirDisc_nspawn _ _ _ _) ?_
  intro out
  cases parse_build_deps out with
  | error e => exact mkdirDisc_mthrow _
  | ok deps2 => exact mkdirDisc_writeFile _ _

theorem mkdirDisc_buildL3Phase (o : Oracle) (conf : Conf)
    (l2mountdir l3dir l3workdir l3mountdir : String) :
    MkdirDisc (buildL3Phase o conf l2mountdir l3dir l3workdir l3mountdir) := by
  unfold buildL3Phase
  refine mkdirDisc_tryFinally ?_ (mkdirDisc_umount _ _)
  refine mkdirDisc_mbind (mkdirDisc_mount _ _ _ _ _) ?_
  intro _
  exact mkdirDisc_mbind (mkdirDisc_run _ _) (fun _ =>
    mkdirDisc_mbind (mkdirDisc_nspawn _ _ _ _) (fun _ => mkdirDisc_mret _))

theorem mkdirDisc_buildL2Phase (o : Oracle) (conf : Conf)
    (l1dir l2dir l2workdir l2mountdir l3dir l3workdir l3mountdir : String) :
    MkdirDisc (buildL2Phase o conf l1dir l2dir l2workdir l2mountdir l3dir l3workdir
      l3mountdir) := by
  unfold buildL2Phase
  refine mkdirDisc_tryFinally ?_ (mkdirDisc_umount _ _)
  refine mkdirDisc_mbind (mkdirDisc_mount _ _ _ _ _) ?_
  intro _
  refine mkdirDisc_mbind (mkdirDisc_pathExists _) ?_
  intro l3ex
  refine mkdirDisc_mbind ?_ (fun _ => mkdirDisc_buildL3Phase _ _ _ _ _ _)
  cases l3ex with
  | true => simpa using mkdirDisc_mret _
  | false =>
    simp only [Bool.false_eq_true, if_false]
    exact mkdirDisc_mbind (mkdirDisc_mkdirs _) (fun _ =>
      mkdirDisc_mbind (mkdirDisc_mkdirs _) (fun _ => mkdirDisc_mkdirs _))

theorem mkdirDisc_exportLoop (o : Oracle) (l3dir dest : String) (l : List String) :
    MkdirDisc (exportLoop o l3dir dest l) := by
  induction l with
  | nil => exact mkdirDisc_mret _
  | cons e rest ih => exact mkdirDisc_mbind (mkdirDisc_run _ _) (fun _ => ih)

theorem mkdirDisc_buildExport (o : Oracle) (conf : Conf) (l3dir : String) :
    MkdirDisc (buildExport o conf l3dir) := by
  unfold buildExport
  split
  · exact mkdirDisc_exportLoop _ _ _ _
  · exact mkdirDisc_mret _

theorem mkdirDisc_buildL2Sel (o : Oracle) (conf : Conf) (l1dir : String)
    (dd : List (String × String) × String) :
    MkdirDisc (buildL2Sel o conf l1dir dd) := by
  unfold buildL2Sel
  dsimp only
  refine mkdirDisc_mbind (mkdirDisc_pathExists _) ?_
  intro l2ex
  refine mkdirDisc_mbind ?_ ?_
  · cases l2ex with
    | true => simpa using mkdirDisc_mret _
    | false =>
      simp only [Bool.false_eq_true, if_false]
      exact mkdirDisc_create_l2 _ _ _ _ _ _ _
  intro _
  exact mkdirDisc_mbind (mkdirDisc_buildL2Phase _ _ _ _ _ _ _ _ _)
    (fun _ => mkdirDisc_buildExport _ _ _)

theorem mkdirDisc_buildFromExtract (o : Oracle) (conf : Conf) (l1dir : String) :
    MkdirDisc (buildFromExtract o conf l1dir) := by
  unfold buildFromExtract
  exact mkdirDisc_mbind (mkdirDisc_extract _ _)
    (fun dd => mkdirDisc_buildL2Sel o conf l1dir dd)

theorem mkdirDisc_build (o : Oracle) (conf : Conf) : MkdirDisc (build o conf) := by
  unfold build
  dsimp only
  refine mkdirDisc_mbind (mkdirDisc_pathExists _) ?_
  intro l1ex
  refine mkdirDisc_mbind ?_ ?_
  · cases l1ex with
    | true => simpa using mkdirDisc_mret _
    | false =>
      simp only [Bool.false_eq_true, if_false]
      exact mkdirDisc_create_l1 _ _ _
  intro _
  exact mkdirDisc_buildFromExtract o conf _

/-! ## Success-path analysis -/

/-- The full dependency-extraction command (nspawn wrapper included). -/
def extractFullCmd (l1dir : String) : String := nspawnCmdStr "" "" (extractCmd l1dir)

theorem mbind_ok {α β : Type} {x : M α} {f : α → M β} {s : St} {b : β}
    (h : ((mbind x f) s).2.2 = Except.ok b) :
    ∃ a, (x s).2.2 = Except.ok a ∧
      (f a (x s).2.1).2.2 = Except.ok b ∧
      ((mbind x f) s).1 = (x s).1 ++ (f a (x s).2.1).1 ∧
      ((mbind x f) s).2.1 = (f a (x s).2.1).2.1 := by
  unfold mbind at h ⊢
  rcases hx : x s with ⟨t, s1, r⟩
  rw [hx] at h
  cases r with
  | error e => simp at h
  | ok a =>
    dsimp only at h
    exact ⟨a, rfl, h, rfl, rfl⟩

theorem tryFinally_ok {α : Type} {body : M α} {fin : M Unit} {s : St} {b : α}
    (h : ((tryFinally body fin) s).2.2 = Except.ok b) :
    (body s).2.2 = Except.ok b ∧
    (∃ u, (fin (body s).2.1).2.2 = Except.ok u) ∧
    ((tryFinally body fin) s).1 = (body s).1 ++ (fin (body s).2.1).1 ∧
    ((tryFinally body fin) s).2.1 = (fin (body s).2.1).2.1 := by
  unfold tryFinally at h ⊢
  rcases hb : body s with ⟨t, s1, rb⟩
  rw [hb] at h
  dsimp only at h
  rcases hf : (fin s1).2.2 with e | u
  · rw [hf] at h; simp at h
  · refine ⟨?_, ⟨u, rfl⟩, rfl, rfl⟩
    rw [hf] at h
    simpa using h

theorem run_ok {o : Oracle} {c : String} {s : St} {out : List String}
    (h : ((run o c) s).2.2 = Except.ok out) : o.runOut c = some out := by
  unfold run at h
  rcases ho : o.runOut c with _ | u <;> rw [ho] at h <;> simp at h
  rw [h]

theorem run_st (o : Oracle) (c : String) (s : St) : ((run o c) s).2.1 = s := by
  unfold run
  rcases ho : o.runOut c with _ | u <;> rfl

theorem nspawn_ok {o : Oracle} {r d f : String} {s : St} {out : List String}
    (h : ((nspawn o r d f) s).2.2 = Except.ok out) :
    o.runOut (nspawnCmdStr d f r) = some out := by
  rcases ho : o.runOut (nspawnCmdStr d f r) with _ | u <;> simp [nspawn, ho] at h
  rw [h]

theorem nspawn_st (o : Oracle) (r d f : String) (s : St) :
    ((nspawn o r d f) s).2.1 = s := by
  rcases ho : o.runOut (nspawnCmdStr d f r) with _ | u <;> simp [nspawn, ho]

theorem mount_ok {o : Oracle} {l u w m : String} {s : St}
    (h : ((mount o l u w m) s).2.2 = Except.ok ()) :
    (∃ v, o.runOut (mountCmdStr l u w m) = some v) ∧
      o.fileOk (m ++ "/usr/bin/apt") = true := by
  unfold mount mbind run massert mret mthrow at h
  rcases ho : o.runOut (mountCmdStr l u w m) with _ | v <;> rw [ho] at h
  · simp at h
  · by_cases hv : o.fileOk (m ++ "/usr/bin/apt")
    · exact ⟨⟨v, rfl⟩, hv⟩
    · simp only [hv, if_false] at h
      simp at h

theorem mount_st (o : Oracle) (l u w m : String) (s : St) :
    ((mount o l u w m) s).2.1 = s := by
  unfold mount mbind run massert mret mthrow
  rcases ho : o.runOut (mountCmdStr l u w m) with _ | v
  · rfl
  · by_cases hv : o.fileOk (m ++ "/usr/bin/apt") <;> simp [hv]

theorem umount_ok {o : Oracle} {p : String} {s : St}
    (h : ((umount o p) s).2.2 = Except.ok ()) :
    ∃ v, o.runOut ("sudo umount " ++ p) = some v := by
  unfold umount run at h
  rcases ho : o.runOut ("sudo umount " ++ p) with _ | v <;> rw [ho] at h
  · simp at h
  · exact ⟨v, rfl⟩

theorem umount_st (o : Oracle) (p : String) (s : St) : ((umount o p) s).2.1 = s := by
  unfold umount run
  rcases ho : o.runOut ("sudo umount " ++ p) with _ | v <;> rfl

theorem pathExists_eval (p : String) (s : St) :
    (pathExists p) s = ([], s, Except.ok (s.fs.contains p)) := rfl

theorem mkdirs_ok {p : String} {s : St} (h : ((mkdirs p) s).2.2 = Except.ok ()) :
    s.fs.contains p = false ∧ (mkdirs p) s = ([Ev.mkdirE p], ⟨p :: s.fs⟩, Except.ok ()) := by
  unfold mkdirs at h ⊢
  by_cases hc : s.fs.contains p
  · rw [if_pos hc] at h; simp at h
  · rw [if_neg hc] at h ⊢
    exact ⟨by simpa using hc, rfl⟩

theorem extract_ok {o : Oracle} {d : String} {s : St}
    {dd : List (String × String) × String}
    (h : ((extract_build_dependencies o d) s).2.2 = Except.ok dd) :
    ∃ out, o.runOut (extractFullCmd d) = some out ∧
      fingerprint_of_output o out = Except.ok dd := by
  unfold extract_build_dependencies at h
  obtain ⟨out, hout, hrest, _, _⟩ := mbind_ok h
  refine ⟨out, nspawn_ok hout, ?_⟩
  rcases hf : fingerprint_of_output o out with e | v <;> rw [hf] at hrest
  · simp [mthrow] at hrest
  · simp [mret] at hrest
    rw [hrest]

theorem extract_st (o : Oracle) (d : String) (s : St) :
    ((extract_build_dependencies o d) s).2.1 = s := by
  unfold extract_build_dependencies mbind
  rcases hn : (nspawn o (extractCmd d) "" "") s with ⟨t, s1, r⟩
  have hs1 : s1 = s := by
    have := nspawn_st o (extractCmd d) "" "" s
    rw [hn] at this
    exact this
  subst hs1
  cases r with
  | error e => rfl
  | ok out =>
    dsimp only
    cases fingerprint_of_output o out with
    | error e => rfl
    | ok dd => rfl

theorem disc_mono {α : Type} {x : M α} (hx : MkdirDisc x) {s : St} {p : String}
    (hp : p ∈ s.fs) : p ∈ ((x s).2.1).fs := (hx s).1 p hp

theorem create_l1_mkdir_mem {o : Oracle} {conf : Conf} {d : String} {s : St}
    (h : ((create_l1 o conf d) s).2.2 = Except.ok ()) :
    Ev.mkdirE d ∈ ((create_l1 o conf d) s).1 := by
  by_cases hc : d ∈ s.fs
  · simp [create_l1, mbind, pathExists, mthrow, hc] at h
  · simp [create_l1, mbind, pathExists, mkdirs, hc]

theorem create_l2_mkdir_mem {o : Oracle} {conf : Conf}
    {l1dir l2dir l2w l2m : String} {deps : List (String × String)} {s : St}
    (h : ((create_l2 o conf l1dir l2dir l2w l2m deps) s).2.2 = Except.ok ()) :
    Ev.mkdirE l2dir ∈ ((create_l2 o conf l1dir l2dir l2w l2m deps) s).1 := by
  by_cases hc : l2dir ∈ s.fs
  · simp [create_l2, mbind, mkdirs, hc] at h
  · simp [create_l2, mbind, mkdirs, hc]

theorem buildL3Phase_ok {o : Oracle} {conf : Conf} {l2m l3d l3w l3m : String} {s : St}
    (h : ((buildL3Phase o conf l2m l3d l3w l3m) s).2.2 = Except.ok ()) :
    (∃ v, o.runOut (mountCmdStr l2m l3d l3w l3m) = some v) ∧
    o.fileOk (l3m ++ "/usr/bin/apt") = true ∧
    (∃ v, o.runOut ("sudo cp -a . " ++ l3m ++ "/srv") = some v) ∧
    (∃ v, o.runOut (nspawnCmdStr conf.drop_capability conf.system_call_filter
      (buildPkgCmd l3m conf.extra_args)) = some v) ∧
    (∃ v, o.runOut ("sudo umount " ++ l3m) = some v) := by
  unfold buildL3Phase at h
  obtain ⟨hbody, ⟨u, hfin⟩, _, _⟩ := tryFinally_ok h
  cases u
  obtain ⟨a, hmnt, hrest, _, _⟩ := mbind_ok hbody
  cases a
  have hm := mount_ok hmnt
  obtain ⟨cpout, hcp, hrest2, _, _⟩ := mbind_ok hrest
  obtain ⟨bpout, hbp, _, _, _⟩ := mbind_ok hrest2
  exact ⟨hm.1, hm.2, ⟨cpout, run_ok hcp⟩, ⟨bpout, nspawn_ok hbp⟩, umount_ok hfin⟩

theorem buildL2Phase_ok {o : Oracle} {conf : Conf}
    {l1dir l2dir l2w l2m l3d l3w l3m : String} {s : St}
    (h : ((buildL2Phase o conf l1dir l2dir l2w l2m l3d l3w l3m) s).2.2 = Except.ok ()) :
    (∃ v, o.runOut (mountCmdStr l1dir l2dir l2w l2m) = some v) ∧
    o.fileOk (l2m ++ "/usr/bin/apt") = true ∧
    (∃ v, o.runOut (mountCmdStr l2m l3d l3w l3m) = some v) ∧
    o.fileOk (l3m ++ "/usr/bin/apt") = true ∧
    (∃ v, o.runOut ("sudo cp -a . " ++ l3m ++ "/srv") = some v) ∧
    (∃ v, o.runOut (nspawnCmdStr conf.drop_capability conf.system_call_filter
      (buildPkgCmd l3m conf.extra_args)) = some v) ∧
    (∃ v, o.runOut ("sudo umount " ++ l3m) = some v) ∧
    (∃ v, o.runOut ("sudo umount " ++ l2m) = some v) ∧
    l3d ∈ (((buildL2Phase o conf l1dir l2dir l2w l2m l3d l3w l3m) s).2.1).fs := by
  unfold buildL2Phase at h ⊢
  obtain ⟨hbody, ⟨u, hfin⟩, htr, hst⟩ := tryFinally_ok h
  cases u
  obtain ⟨a, hmnt, hrest, htrb, hstb⟩ := mbind_ok hbody
  cases a
  have hm2 := mount_ok hmnt
  obtain ⟨l3ex, hpe, hrest2, _, hst2⟩ := mbind_ok hrest
  obtain ⟨b2, hif, hl3p, _, hst3⟩ := mbind_ok hrest2
  cases b2
  have hl3facts := buildL3Phase_ok hl3p
  -- membership of l3d in the state after the if-step
  have hmem_if : l3d ∈
      ((if l3ex = true then mret ()
        else mbind (mkdirs l3d) (fun _ =>
          mbind (mkdirs l3w) (fun _ => mkdirs l3m)))
        ((pathExists l3d ((mount o l1dir l2dir l2w l2m) s).2.1).2.1)).2.1.fs := by
    cases l3ex with
    | false =>
      simp only [Bool.false_eq_true, if_false] at hif ⊢
      obtain ⟨a3, hk3, hrest3, _, hst4⟩ := mbind_ok hif
      cases a3
      have hd3 := mkdirs_ok hk3
      rw [hst4]
      apply disc_mono (mkdirDisc_mbind (mkdirDisc_mkdirs _) (fun _ => mkdirDisc_mkdirs _))
      rw [hd3.2]
      exact List.mem_cons_self _ _
    | true =>
      have hc : l3d ∈ (((mount o l1dir l2dir l2w l2m) s).2.1).fs := by
        have h1 : ((pathExists l3d ((mount o l1dir l2dir l2w l2m) s).2.1).2.2)
            = Except.ok true := hpe
        simp [pathExists] at h1
        exact h1
      simpa [mret] using hc
  refine ⟨hm2.1, hm2.2, hl3facts.1, hl3facts.2.1, hl3facts.2.2.1, hl3facts.2.2.2.1,
    hl3facts.2.2.2.2, umount_ok hfin, ?_⟩
  rw [hst, hstb, hst2, hst3]
  apply disc_mono (mkdirDisc_umount o l2m)
  apply disc_mono (mkdirDisc_buildL3Phase o conf l2m l3d l3w l3m)
  exact hmem_if

/-- For write-free computations: any path present afterwards was present
before or had its `mkdirE` emitted. -/
def NewMkdir {α : Type} (x : M α) : Prop :=
  ∀ s p, p ∈ ((x s).2.1).fs → p ∈ s.fs ∨ Ev.mkdirE p ∈ (x s).1

theorem newMkdir_mbind {α β : Type} {x : M α} {f : α → M β}
    (hx : NewMkdir x) (hf : ∀ a, NewMkdir (f a)) : NewMkdir (mbind x f) := by
  intro s p hp
  unfold mbind at hp ⊢
  rcases hxs : x s with ⟨t, s1, r⟩
  try rw [hxs] at hp
  try rw [hxs]
  have hx1 : p ∈ s1.fs → p ∈ s.fs ∨ Ev.mkdirE p ∈ t := by
    intro h
    have := hx s p
    rw [hxs] at this
    exact this h
  cases r with
  | error e => exact hx1 (by simpa using hp)
  | ok a =>
    dsimp only at hp ⊢
    rcases hf a s1 p hp with h | h
    · rcases hx1 h with h2 | h2
      · exact Or.inl h2
      · exact Or.inr (List.mem_append_left _ h2)
    · exact Or.inr (List.mem_append_right _ h)

theorem newMkdir_mret {α : Type} (a : α) : NewMkdir (mret a) := by
  intro s p hp
  exact Or.inl hp

theorem newMkdir_mthrow {α : Type} (e : Err) : NewMkdir (mthrow (α := α) e) := by
  intro s p hp
  exact Or.inl hp

theorem newMkdir_run (o : Oracle) (c : String) : NewMkdir (run o c) := by
  intro s p hp
  unfold run at hp
  rcases ho : o.runOut c with _ | u <;> rw [ho] at hp <;> exact Or.inl hp

theorem newMkdir_nspawn (o : Oracle) (r d f : String) : NewMkdir (nspawn o r d f) := by
  intro s p hp
  unfold nspawn at hp
  dsimp only at hp
  rcases ho : o.runOut (nspawnCmdStr d f r) with _ | u <;> rw [ho] at hp <;> exact Or.inl hp

theorem newMkdir_massert (b : Bool) (msg : String) : NewMkdir (massert b msg) := by
  intro s p hp
  cases b <;> simp [massert, mret, mthrow] at hp <;> exact Or.inl hp

theorem newMkdir_pathExists (q : String) : NewMkdir (pathExists q) := by
  intro s p hp
  exact Or.inl hp

theorem newMkdir_mkdirs (q : String) : NewMkdir (mkdirs q) := by
  intro s p hp
  unfold mkdirs at hp ⊢
  by_cases hc : s.fs.contains q
  · rw [if_pos hc] at hp ⊢
    exact Or.inl hp
  · rw [if_neg hc] at hp ⊢
    rcases List.mem_cons.mp hp with rfl | h
    · exact Or.inr (by simp)
    · exact Or.inl h

theorem newMkdir_create_l1 (o : Oracle) (conf : Conf) (d : String) :
    NewMkdir (create_l1 o conf d) := by
  unfold create_l1
  refine newMkdir_mbind (newMkdir_pathExists _) ?_
  intro ex
  cases ex with
  | true => simpa using newMkdir_mthrow _
  | false =>
    simp only [Bool.false_eq_true, if_false]
    exact newMkdir_mbind (newMkdir_mkdirs _) (fun _ =>
      newMkdir_mbind (newMkdir_run _ _) (fun _ =>
        newMkdir_mbind (newMkdir_massert _ _) (fun _ => newMkdir_massert _ _)))

/-! ## Export-step analysis -/

theorem exportLoop_ok {o : Oracle} {l3dir dest : String} {l : List String} {s : St}
    (h : ((exportLoop o l3dir dest l) s).2.2 = Except.ok ()) :
    ∀ e ∈ l, ∃ v, o.runOut (exportCmd l3dir e dest) = some v := by
  induction l generalizing s with
  | nil => simp
  | cons e0 rest ih =>
    obtain ⟨out, hrun, hrest, _, _⟩ := mbind_ok h
    intro e he
    rcases List.mem_cons.mp he with rfl | he2
    · exact ⟨out, run_ok hrun⟩
    · exact ih hrest e he2

theorem buildExport_ok {o : Oracle} {conf : Conf} {l3dir : String} {s : St}
    (h : ((buildExport o conf l3dir) s).2.2 = Except.ok ()) :
    conf.export_dir ≠ "" →
      ∀ e ∈ exportExts, ∃ v, o.runOut (exportCmd l3dir e (o.abspath conf.export_dir)) = some v := by
  intro hne
  unfold buildExport at h
  rw [if_pos hne] at h
  exact exportLoop_ok h

theorem exportLoop_eval {o : Oracle} {l3dir dest : String} (l : List String) (s : St)
    (h : ∀ e ∈ l, ∃ v, o.runOut (exportCmd l3dir e dest) = some v) :
    (exportLoop o l3dir dest l) s
      = (l.map (fun e => Ev.cmdE (exportCmd l3dir e dest) true), s, Except.ok ()) := by
  induction l with
  | nil => rfl
  | cons e0 rest ih =>
    obtain ⟨v, hv⟩ := h e0 (List.mem_cons_self _ _)
    have hr : ∀ e ∈ rest, ∃ v, o.runOut (exportCmd l3dir e dest) = some v :=
      fun e he => h e (List.mem_cons_of_mem _ he)
    simp [exportLoop, mbind, run, hv, ih hr]

theorem exportLoop_mem {o : Oracle} {l3dir dest : String} {l : List String} {s : St}
    (h : ((exportLoop o l3dir dest l) s).2.2 = Except.ok ()) :
    ∀ e ∈ l, Ev.cmdE (exportCmd l3dir e dest) true ∈ ((exportLoop o l3dir dest l) s).1 := by
  have hall := exportLoop_ok h
  rw [exportLoop_eval l s hall]
  intro e he
  exact List.mem_map.mpr ⟨e, he, rfl⟩

theorem buildExport_mem {o : Oracle} {conf : Conf} {l3dir : String} {s : St}
    (h : ((buildExport o conf l3dir) s).2.2 = Except.ok ()) :
    conf.export_dir ≠ "" →
      ∀ e ∈ exportExts,
        Ev.cmdE (exportCmd l3dir e (o.abspath conf.export_dir)) true
          ∈ ((buildExport o conf l3dir) s).1 := by
  intro hne
  unfold buildExport at h ⊢
  rw [if_pos hne] at h ⊢
  exact exportLoop_mem h

theorem buildL2Sel_ok {o : Oracle} {conf : Conf} {l1dir : String}
    {dd : List (String × String) × String} {s : St}
    (h : ((buildL2Sel o conf l1dir dd) s).2.2 = Except.ok ()) :
    (∃ v, o.runOut (mountCmdStr l1dir (l2dirOf conf dd.2) (l2workdirOf conf dd.2)
      (l2mountdirOf conf dd.2)) = some v) ∧
    o.fileOk (l2mountdirOf conf dd.2 ++ "/usr/bin/apt") = true ∧
    (∃ v, o.runOut (mountCmdStr (l2mountdirOf conf dd.2) (l3dirOf conf dd.2)
      (l3workdirOf conf dd.2) (l3mountdirOf conf dd.2)) = some v) ∧
    o.fileOk (l3mountdirOf conf dd.2 ++ "/usr/bin/apt") = true ∧
    (∃ v, o.runOut ("sudo cp -a . " ++ l3mountdirOf conf dd.2 ++ "/srv") = some v) ∧
    (∃ v, o.runOut (nspawnCmdStr conf.drop_capability conf.system_call_filter
      (buildPkgCmd (l3mountdirOf conf dd.2) conf.extra_args)) = some v) ∧
    (∃ v, o.runOut ("sudo umount " ++ l3mountdirOf conf dd.2) = some v) ∧
    (∃ v, o.runOut ("sudo umount " ++ l2mountdirOf conf dd.2) = some v) ∧
    (conf.export_dir ≠ "" → ∀ e ∈ exportExts,
      ∃ v, o.runOut (exportCmd (l3dirOf conf dd.2) e (o.abspath conf.export_dir)) = some v) ∧
    l2dirOf conf dd.2 ∈ (((buildL2Sel o conf l1dir dd) s).2.1).fs ∧
    l3dirOf conf dd.2 ∈ (((buildL2Sel o conf l1dir dd) s).2.1).fs ∧
    (l2dirOf conf dd.2 ∉ s.fs →
      Ev.mkdirE (l2dirOf conf dd.2) ∈ ((buildL2Sel o conf l1dir dd) s).1) := by
  have hdisc := mkdirDisc_buildL2Sel o conf l1dir dd
  unfold buildL2Sel at h ⊢
  obtain ⟨l2ex, hl2e, h1, htr1, hst1⟩ := mbind_ok h
  obtain ⟨u1, hif, h2, htr2, hst2⟩ := mbind_ok h1
  cases u1
  obtain ⟨u2, hphase, hexp, htr3, hst3⟩ := mbind_ok h2
  cases u2
  have hph := buildL2Phase_ok hphase
  have hval : s.fs.contains (l2dirOf conf dd.2) = l2ex := Except.ok.inj hl2e
  have hl3mem :
      l3dirOf conf dd.2 ∈
        ((mbind (pathExists (l2dirOf conf dd.2)) (fun l2ex =>
          mbind (if l2ex = true then mret ()
                 else create_l2 o conf l1dir (l2dirOf conf dd.2) (l2workdirOf conf dd.2)
                   (l2mountdirOf conf dd.2) dd.1) (fun _ =>
            mbind (buildL2Phase o conf l1dir (l2dirOf conf dd.2) (l2workdirOf conf dd.2)
              (l2mountdirOf conf dd.2) (l3dirOf conf dd.2) (l3workdirOf conf dd.2)
              (l3mountdirOf conf dd.2))
              (fun _ => buildExport o conf (l3dirOf conf dd.2))))) s).2.1.fs := by
    rw [hst1, hst2, hst3]
    exact disc_mono (mkdirDisc_buildExport _ _ _) hph.2.2.2.2.2.2.2.2
  have hl2memTr :
      l2dirOf conf dd.2 ∉ s.fs →
        Ev.mkdirE (l2dirOf conf dd.2) ∈
          ((mbind (pathExists (l2dirOf conf dd.2)) (fun l2ex =>
            mbind (if l2ex = true then mret ()
                   else create_l2 o conf l1dir (l2dirOf conf dd.2) (l2workdirOf conf dd.2)
                     (l2mountdirOf conf dd.2) dd.1) (fun _ =>
              mbind (buildL2Phase o conf l1dir (l2dirOf conf dd.2) (l2workdirOf conf dd.2)
                (l2mountdirOf conf dd.2) (l3dirOf conf dd.2) (l3workdirOf conf dd.2)
                (l3mountdirOf conf dd.2))
                (fun _ => buildExport o conf (l3dirOf conf dd.2))))) s).1 := by
    intro hns
    have hl2exF : l2ex = false := by
      rw [← hval]
      simpa using hns
    subst hl2exF
    simp only [Bool.false_eq_true, if_false] at hif
    have hmk := create_l2_mkdir_mem hif
    rw [htr1, htr2]
    exact List.mem_append_right _ (List.mem_append_left _ hmk)
  have hl2mem :
      l2dirOf conf dd.2 ∈
        ((mbind (pathExists (l2dirOf conf dd.2)) (fun l2ex =>
          mbind (if l2ex = true then mret ()
                 else create_l2 o conf l1dir (l2dirOf conf dd.2) (l2workdirOf conf dd.2)
                   (l2mountdirOf conf dd.2) dd.1) (fun _ =>
            mbind (buildL2Phase o conf l1dir (l2dirOf conf dd.2) (l2workdirOf conf dd.2)
              (l2mountdirOf conf dd.2) (l3dirOf conf dd.2) (l3workdirOf conf dd.2)
              (l3mountdirOf conf dd.2))
              (fun _ => buildExport o conf (l3dirOf conf dd.2))))) s).2.1.fs := by
    by_cases hns : l2dirOf conf dd.2 ∈ s.fs
    · exact disc_mono hdisc hns
    · exact ((hdisc s).2.2.1) _ (hl2memTr hns)
  exact ⟨hph.1, hph.2.1, hph.2.2.1, hph.2.2.2.1, hph.2.2.2.2.1, hph.2.2.2.2.2.1,
    hph.2.2.2.2.2.2.1, hph.2.2.2.2.2.2.2.1, buildExport_ok hexp, hl2mem, hl3mem, hl2memTr⟩

theorem buildFromExtract_ok {o : Oracle} {conf : Conf} {l1dir : String} {s : St}
    (h : ((buildFromExtract o conf l1dir) s).2.2 = Except.ok ()) :
    ∃ xout dd,
      o.runOut (extractFullCmd l1dir) = some xout ∧
      fingerprint_of_output o xout = Except.ok dd ∧
      (∃ v, o.runOut (mountCmdStr l1dir (l2dirOf conf dd.2) (l2workdirOf conf dd.2)
        (l2mountdirOf conf dd.2)) = some v) ∧
      o.fileOk (l2mountdirOf conf dd.2 ++ "/usr/bin/apt") = true ∧
      (∃ v, o.runOut (mountCmdStr (l2mountdirOf conf dd.2) (l3dirOf conf dd.2)
        (l3workdirOf conf dd.2) (l3mountdirOf conf dd.2)) = some v) ∧
      o.fileOk (l3mountdirOf conf dd.2 ++ "/usr/bin/apt") = true ∧
      (∃ v, o.runOut ("sudo cp -a . " ++ l3mountdirOf conf dd.2 ++ "/srv") = some v) ∧
      (∃ v, o.runOut (nspawnCmdStr conf.drop_capability conf.system_call_filter
        (buildPkgCmd (l3mountdirOf conf dd.2) conf.extra_args)) = some v) ∧
      (∃ v, o.runOut ("sudo umount " ++ l3mountdirOf conf dd.2) = some v) ∧
      (∃ v, o.runOut ("sudo umount " ++ l2mountdirOf conf dd.2) = some v) ∧
      (conf.export_dir ≠ "" → ∀ e ∈ exportExts,
        ∃ v, o.runOut (exportCmd (l3dirOf conf dd.2) e (o.abspath conf.export_dir)) = some v) ∧
      l2dirOf conf dd.2 ∈ (((buildFromExtract o conf l1dir) s).2.1).fs ∧
      l3dirOf conf dd.2 ∈ (((buildFromExtract o conf l1dir) s).2.1).fs ∧
      (l2dirOf conf dd.2 ∉ s.fs →
        Ev.mkdirE (l2dirOf conf dd.2) ∈ ((buildFromExtract o conf l1dir) s).1) := by
  unfold buildFromExtract at h ⊢
  obtain ⟨dd, hex, hsel, htr, hst⟩ := mbind_ok h
  obtain ⟨xout, hxo, hfp⟩ := extract_ok hex
  have hsf := buildL2Sel_ok hsel
  refine ⟨xout, dd, hxo, hfp, hsf.1, hsf.2.1, hsf.2.2.1, hsf.2.2.2.1, hsf.2.2.2.2.1,
    hsf.2.2.2.2.2.1, hsf.2.2.2.2.2.2.1, hsf.2.2.2.2.2.2.2.1, hsf.2.2.2.2.2.2.2.2.1,
    ?_, ?_, ?_⟩
  · rw [hst]
    exact hsf.2.2.2.2.2.2.2.2.2.1
  · rw [hst]
    exact hsf.2.2.2.2.2.2.2.2.2.2.1
  · intro hns
    have hns2 : l2dirOf conf dd.2 ∉
        (((extract_build_dependencies o l1dir) s).2.1).fs := by
      rw [extract_st]
      exact hns
    rw [htr]
    exact List.mem_append_right _ (hsf.2.2.2.2.2.2.2.2.2.2.2 hns2)

theorem build_ok_facts {o : Oracle} {conf : Conf} {s : St}
    (hs : ((build o conf) s).2.2 = Except.ok ()) :
    ∃ xout dd,
      o.runOut (extractFullCmd (l1dirOf conf)) = some xout ∧
      fingerprint_of_output o xout = Except.ok dd ∧
      (∃ v, o.runOut (mountCmdStr (l1dirOf conf) (l2dirOf conf dd.2)
        (l2workdirOf conf dd.2) (l2mountdirOf conf dd.2)) = some v) ∧
      o.fileOk (l2mountdirOf conf dd.2 ++ "/usr/bin/apt") = true ∧
      (∃ v, o.runOut (mountCmdStr (l2mountdirOf conf dd.2) (l3dirOf conf dd.2)
        (l3workdirOf conf dd.2) (l3mountdirOf conf dd.2)) = some v) ∧
      o.fileOk (l3mountdirOf conf dd.2 ++ "/usr/bin/apt") = true ∧
      (∃ v, o.runOut ("sudo cp -a . " ++ l3mountdirOf conf dd.2 ++ "/srv") = some v) ∧
      (∃ v, o.runOut (nspawnCmdStr conf.drop_capability conf.system_call_filter
        (buildPkgCmd (l3mountdirOf conf dd.2) conf.extra_args)) = some v) ∧
      (∃ v, o.runOut ("sudo umount " ++ l3mountdirOf conf dd.2) = some v) ∧
      (∃ v, o.runOut ("sudo umount " ++ l2mountdirOf conf dd.2) = some v) ∧
      (conf.export_dir ≠ "" → ∀ e ∈ exportExts,
        ∃ v, o.runOut (exportCmd (l3dirOf conf dd.2) e (o.abspath conf.export_dir)) = some v) ∧
      l1dirOf conf ∈ (((build o conf) s).2.1).fs ∧
      l2dirOf conf dd.2 ∈ (((build o conf) s).2.1).fs ∧
      l3dirOf conf dd.2 ∈ (((build o conf) s).2.1).fs ∧
      (l2dirOf conf dd.2 ∉ s.fs →
        Ev.mkdirE (l2dirOf conf dd.2) ∈ ((build o conf) s).1) := by
  have hdisc := mkdirDisc_build o conf
  unfold build at hs ⊢
  obtain ⟨l1ex, hl1e, h1, htr1, hst1⟩ := mbind_ok hs
  obtain ⟨u1, hif1, h2, htr2, hst2⟩ := mbind_ok h1
  cases u1
  obtain ⟨xout, dd, hxo, hfp, f1, f2, f3, f4, f5, f6, f7, f8, f9, m2, m3, mtr⟩ :=
    buildFromExtract_ok h2
  have hval : s.fs.contains (l1dirOf conf) = l1ex := Except.ok.inj hl1e
  -- L1 membership in the final state
  have hm1 : l1dirOf conf ∈
      ((mbind (pathExists (l1dirOf conf)) (fun l1ex =>
        mbind (if l1ex = true then mret () else create_l1 o conf (l1dirOf conf))
          (fun _ => buildFromExtract o conf (l1dirOf conf))) : M Unit) s).2.1.fs := by
    by_cases hc : l1dirOf conf ∈ s.fs
    · exact disc_mono (mkdirDisc_build o conf) hc
    · have hexF : l1ex = false := by
        rw [← hval]; simpa using hc
      subst hexF
      simp only [Bool.false_eq_true, if_false] at hif1
      have hmk := create_l1_mkdir_mem hif1
      refine ((hdisc s).2.2.1) _ ?_
      show Ev.mkdirE (l1dirOf conf) ∈
        ((mbind (pathExists (l1dirOf conf)) (fun l1ex =>
          mbind (if l1ex = true then mret () else create_l1 o conf (l1dirOf conf))
            (fun _ => buildFromExtract o conf (l1dirOf conf))) : M Unit) s).1
      rw [htr1, htr2]
      exact List.mem_append_right _ (List.mem_append_left _ hmk)
  -- L2 / L3 memberships and mkdir-trace fact lifted through the state chain
  have hm2 : l2dirOf conf dd.2 ∈
      ((mbind (pathExists (l1dirOf conf)) (fun l1ex =>
        mbind (if l1ex = true then mret () else create_l1 o conf (l1dirOf conf))
          (fun _ => buildFromExtract o conf (l1dirOf conf))) : M Unit) s).2.1.fs := by
    rw [hst1, hst2]
    exact m2
  have hm3 : l3dirOf conf dd.2 ∈
      ((mbind (pathExists (l1dirOf conf)) (fun l1ex =>
        mbind (if l1ex = true then mret () else create_l1 o conf (l1dirOf conf))
          (fun _ => buildFromExtract o conf (l1dirOf conf))) : M Unit) s).2.1.fs := by
    rw [hst1, hst2]
    exact m3
  have hmtr : l2dirOf conf dd.2 ∉ s.fs →
      Ev.mkdirE (l2dirOf conf dd.2) ∈
        ((mbind (pathExists (l1dirOf conf)) (fun l1ex =>
          mbind (if l1ex = true then mret () else create_l1 o conf (l1dirOf conf))
            (fun _ => buildFromExtract o conf (l1dirOf conf))) : M Unit) s).1 := by
    intro hns
    rw [htr1, htr2]
    -- state before buildFromExtract
    cases l1ex with
    | true =>
      -- L1 pre-existing: the intermediate state is s itself
      have hmk := mtr (by simpa [mret] using hns)
      exact List.mem_append_right _ (List.mem_append_right _ hmk)
    | false =>
      simp only [Bool.false_eq_true, if_false] at hif1 htr2 hst2 ⊢
      by_cases hmid : l2dirOf conf dd.2 ∈
          (((create_l1 o conf (l1dirOf conf)) ((pathExists (l1dirOf conf) s).2.1)).2.1).fs
      · rcases newMkdir_create_l1 o conf (l1dirOf conf) _ _ hmid with hin | hmk
        · exact absurd hin hns
        · exact List.mem_append_right _ (List.mem_append_left _ hmk)
      · have hmk := mtr hmid
        exact List.mem_append_right _ (List.mem_append_right _ hmk)
  exact ⟨xout, dd, hxo, hfp, f1, f2, f3, f4, f5, f6, f7, f8, f9, hm1, hm2, hm3, hmtr⟩

/-! ## Cache-hit evaluation -/

/-- The three events of a successful `mount` call. -/
def mountEvs (lower upper work mnt : String) : List Ev :=
  [Ev.mountCallE lower upper work mnt, Ev.cmdE (mountCmdStr lower upper work mnt) true,
   Ev.mountedE mnt]

/-- The two events of a successful `umount` call. -/
def umountEvs (p : String) : List Ev :=
  [Ev.umountCallE p, Ev.cmdE ("sudo umount " ++ p) true]

/-- The complete trace of a fully cache-hit `build` session (L1, L2 and L3
dirs all pre-existing, every external step succeeding), before the export
step: extract, mount L2, mount L3, copy sources, run the package build,
unmount L3, unmount L2.  No directory is created, no dependency
installation runs. -/
def cacheHitCore (o : Oracle) (conf : Conf) (dh : String) : List Ev :=
  Ev.nspawnE (extractFullCmd (l1dirOf conf)) true ::
    (mountEvs (l1dirOf conf) (l2dirOf conf dh) (l2workdirOf conf dh) (l2mountdirOf conf dh)
     ++ mountEvs (l2mountdirOf conf dh) (l3dirOf conf dh) (l3workdirOf conf dh)
        (l3mountdirOf conf dh)
     ++ [Ev.cmdE ("sudo cp -a . " ++ l3mountdirOf conf dh ++ "/srv") true,
         Ev.nspawnE (nspawnCmdStr conf.drop_capability conf.system_call_filter
           (buildPkgCmd (l3mountdirOf conf dh) conf.extra_args)) true]
     ++ umountEvs (l3mountdirOf conf dh) ++ umountEvs (l2mountdirOf conf dh))

/-- The export-step events of a successful session. -/
def exportEvs (o : Oracle) (conf : Conf) (dh : String) : List Ev :=
  if conf.export_dir ≠ "" then
    exportExts.map (fun e =>
      Ev.cmdE (exportCmd (l3dirOf conf dh) e (o.abspath conf.export_dir)) true)
  else []

theorem mount_eval {o : Oracle} {l u w m : String} {v : List String}
    (hm : o.runOut (mountCmdStr l u w m) = some v)
    (hv : o.fileOk (m ++ "/usr/bin/apt") = true) (s : St) :
    (mount o l u w m) s = (mountEvs l u w m, s, Except.ok ()) := by
  simp [mount, mbind, run, massert, mret, hm, hv, mountEvs]

theorem umount_eval {o : Oracle} {p : String} {v : List String}
    (hu : o.runOut ("sudo umount " ++ p) = some v) (s : St) :
    (umount o p) s = (umountEvs p, s, Except.ok ()) := by
  simp [umount, run, hu, umountEvs]

theorem nspawn_eval {o : Oracle} {r d f : String} {v : List String}
    (hn : o.runOut (nspawnCmdStr d f r) = some v) (s : St) :
    (nspawn o r d f) s = ([Ev.nspawnE (nspawnCmdStr d f r) true], s, Except.ok v) := by
  simp [nspawn, hn]

theorem run_eval {o : Oracle} {c : String} {v : List String}
    (hr : o.runOut c = some v) (s : St) :
    (run o c) s = ([Ev.cmdE c true], s, Except.ok v) := by
  simp [run, hr]

theorem extract_eval {o : Oracle} {d : String} {xout : List String}
    {dd : List (String × String) × String}
    (hx : o.runOut (extractFullCmd d) = some xout)
    (hf : fingerprint_of_output o xout = Except.ok dd) (s : St) :
    (extract_build_dependencies o d) s
      = ([Ev.nspawnE (extractFullCmd d) true], s, Except.ok dd) := by
  have hn := nspawn_eval (r := extractCmd d) (d := "") (f := "") hx s
  simp [extract_build_dependencies, mbind, hn, hf, mret, extractFullCmd]

theorem buildL3Phase_eval {o : Oracle} {conf : Conf} {l2m l3d l3w l3m : String}
    {m3o cpo bpo u3o : List String}
    (hm3 : o.runOut (mountCmdStr l2m l3d l3w l3m) = some m3o)
    (hv3 : o.fileOk (l3m ++ "/usr/bin/apt") = true)
    (hcp : o.runOut ("sudo cp -a . " ++ l3m ++ "/srv") = some cpo)
    (hbp : o.runOut (nspawnCmdStr conf.drop_capability conf.system_call_filter
      (buildPkgCmd l3m conf.extra_args)) = some bpo)
    (hu3 : o.runOut ("sudo umount " ++ l3m) = some u3o) (s : St) :
    (buildL3Phase o conf l2m l3d l3w l3m) s
      = (mountEvs l2m l3d l3w l3m
          ++ [Ev.cmdE ("sudo cp -a . " ++ l3m ++ "/srv") true,
              Ev.nspawnE (nspawnCmdStr conf.drop_capability conf.system_call_filter
                (buildPkgCmd l3m conf.extra_args)) true]
          ++ umountEvs l3m, s, Except.ok ()) := by
  simp [buildL3Phase, tryFinally, mbind, mount_eval hm3 hv3, run_eval hcp,
    nspawn_eval hbp, umount_eval hu3, mret]

theorem buildL2Phase_eval {o : Oracle} {conf : Conf}
    {l1dir l2dir l2w l2m l3d l3w l3m : String}
    {m2o m3o cpo bpo u3o u2o : List String} {s : St}
    (h3 : l3d ∈ s.fs)
    (hm2 : o.runOut (mountCmdStr l1dir l2dir l2w l2m) = some m2o)
    (hv2 : o.fileOk (l2m ++ "/usr/bin/apt") = true)
    (hm3 : o.runOut (mountCmdStr l2m l3d l3w l3m) = some m3o)
    (hv3 : o.fileOk (l3m ++ "/usr/bin/apt") = true)
    (hcp : o.runOut ("sudo cp -a . " ++ l3m ++ "/srv") = some cpo)
    (hbp : o.runOut (nspawnCmdStr conf.drop_capability conf.system_call_filter
      (buildPkgCmd l3m conf.extra_args)) = some bpo)
    (hu3 : o.runOut ("sudo umount " ++ l3m) = some u3o)
    (hu2 : o.runOut ("sudo umount " ++ l2m) = some u2o) :
    (buildL2Phase o conf l1dir l2dir l2w l2m l3d l3w l3m) s
      = (mountEvs l1dir l2dir l2w l2m
          ++ (mountEvs l2m l3d l3w l3m
            ++ [Ev.cmdE ("sudo cp -a . " ++ l3m ++ "/srv") true,
                Ev.nspawnE (nspawnCmdStr conf.drop_capability conf.system_call_filter
                  (buildPkgCmd l3m conf.extra_args)) true]
            ++ umountEvs l3m)
          ++ umountEvs l2m, s, Except.ok ()) := by
  simp [buildL2Phase, tryFinally, mbind, mount_eval hm2 hv2, pathExists, h3,
    buildL3Phase_eval hm3 hv3 hcp hbp hu3, umount_eval hu2, mret]

theorem buildExport_eval {o : Oracle} {conf : Conf} {l3dir : String} (s : St)
    (h : conf.export_dir ≠ "" → ∀ e ∈ exportExts,
      ∃ v, o.runOut (exportCmd l3dir e (o.abspath conf.export_dir)) = some v) :
    (buildExport o conf l3dir) s
      = ((if conf.export_dir ≠ "" then
            exportExts.map (fun e =>
              Ev.cmdE (exportCmd l3dir e (o.abspath conf.export_dir)) true)
          else []), s, Except.ok ()) := by
  unfold buildExport
  by_cases hne : conf.export_dir = ""
  · simp [hne, mret]
  · simp only [hne, ne_eq, not_false_eq_true, if_true]
    exact exportLoop_eval _ _ (h hne)

theorem buildL2Sel_eval {o : Oracle} {conf : Conf} {l1dir : String}
    {dd : List (String × String) × String}
    {m2o m3o cpo bpo u3o u2o : List String} {s : St}
    (h2 : l2dirOf conf dd.2 ∈ s.fs)
    (h3 : l3dirOf conf dd.2 ∈ s.fs)
    (hm2 : o.runOut (mountCmdStr l1dir (l2dirOf conf dd.2) (l2workdirOf conf dd.2)
      (l2mountdirOf conf dd.2)) = some m2o)
    (hv2 : o.fileOk (l2mountdirOf conf dd.2 ++ "/usr/bin/apt") = true)
    (hm3 : o.runOut (mountCmdStr (l2mountdirOf conf dd.2) (l3dirOf conf dd.2)
      (l3workdirOf conf dd.2) (l3mountdirOf conf dd.2)) = some m3o)
    (hv3 : o.fileOk (l3mountdirOf conf dd.2 ++ "/usr/bin/apt") = true)
    (hcp : o.runOut ("sudo cp -a . " ++ l3mountdirOf conf dd.2 ++ "/srv") = some cpo)
    (hbp : o.runOut (nspawnCmdStr conf.drop_capability conf.system_call_filter
      (buildPkgCmd (l3mountdirOf conf dd.2) conf.extra_args)) = some bpo)
    (hu3 : o.runOut ("sudo umount " ++ l3mountdirOf conf dd.2) = some u3o)
    (hu2 : o.runOut ("sudo umount " ++ l2mountdirOf conf dd.2) = some u2o)
    (hexp : conf.export_dir ≠ "" → ∀ e ∈ exportExts,
      ∃ v, o.runOut (exportCmd (l3dirOf conf dd.2) e (o.abspath conf.export_dir)) = some v) :
    (buildL2Sel o conf l1dir dd) s
      = ((mountEvs l1dir (l2dirOf conf dd.2) (l2workdirOf conf dd.2) (l2mountdirOf conf dd.2)
          ++ (mountEvs (l2mountdirOf conf dd.2) (l3dirOf conf dd.2) (l3workdirOf conf dd.2)
              (l3mountdirOf conf dd.2)
            ++ [Ev.cmdE ("sudo cp -a . " ++ l3mountdirOf conf dd.2 ++ "/srv") true,
                Ev.nspawnE (nspawnCmdStr conf.drop_capability conf.system_call_filter
                  (buildPkgCmd (l3mountdirOf conf dd.2) conf.extra_args)) true]
            ++ umountEvs (l3mountdirOf conf dd.2))
          ++ umountEvs (l2mountdirOf conf dd.2)) ++ exportEvs o conf dd.2,
         s, Except.ok ()) := by
  simp [buildL2Sel, mbind, pathExists, h2, mret,
    buildL2Phase_eval h3 hm2 hv2 hm3 hv3 hcp hbp hu3 hu2,
    buildExport_eval s hexp, exportEvs]

theorem build_cache_hit {o : Oracle} {conf : Conf}
    {dd : List (String × String) × String} {xout m2o m3o cpo bpo u3o u2o : List String}
    {s : St}
    (h1 : l1dirOf conf ∈ s.fs)
    (hx : o.runOut (extractFullCmd (l1dirOf conf)) = some xout)
    (hf : fingerprint_of_output o xout = Except.ok dd)
    (h2 : l2dirOf conf dd.2 ∈ s.fs)
    (h3 : l3dirOf conf dd.2 ∈ s.fs)
    (hm2 : o.runOut (mountCmdStr (l1dirOf conf) (l2dirOf conf dd.2) (l2workdirOf conf dd.2)
      (l2mountdirOf conf dd.2)) = some m2o)
    (hv2 : o.fileOk (l2mountdirOf conf dd.2 ++ "/usr/bin/apt") = true)
    (hm3 : o.runOut (mountCmdStr (l2mountdirOf conf dd.2) (l3dirOf conf dd.2)
      (l3workdirOf conf dd.2) (l3mountdirOf conf dd.2)) = some m3o)
    (hv3 : o.fileOk (l3mountdirOf conf dd.2 ++ "/usr/bin/apt") = true)
    (hcp : o.runOut ("sudo cp -a . " ++ l3mountdirOf conf dd.2 ++ "/srv") = some cpo)
    (hbp : o.runOut (nspawnCmdStr conf.drop_capability conf.system_call_filter
      (buildPkgCmd (l3mountdirOf conf dd.2) conf.extra_args)) = some bpo)
    (hu3 : o.runOut ("sudo umount " ++ l3mountdirOf conf dd.2) = some u3o)
    (hu2 : o.runOut ("sudo umount " ++ l2mountdirOf conf dd.2) = some u2o)
    (hexp : conf.export_dir ≠ "" → ∀ e ∈ exportExts,
      ∃ v, o.runOut (exportCmd (l3dirOf conf dd.2) e (o.abspath conf.export_dir)) = some v) :
    (build o conf) s = (cacheHitCore o conf dd.2 ++ exportEvs o conf dd.2, s, Except.ok ()) := by
  have hsel := buildL2Sel_eval h2 h3 hm2 hv2 hm3 hv3 hcp hbp hu3 hu2 hexp
  simp [build, buildFromExtract, mbind, pathExists, h1, mret,
    extract_eval hx hf, hsel, cacheHitCore, List.append_assoc]

theorem buildL2Sel_export_mem {o : Oracle} {conf : Conf} {l1dir : String}
    {dd : List (String × String) × String} {s : St}
    (h : ((buildL2Sel o conf l1dir dd) s).2.2 = Except.ok ())
    (hne : conf.export_dir ≠ "") :
    ∀ e ∈ exportExts,
      Ev.cmdE (exportCmd (l3dirOf conf dd.2) e (o.abspath conf.export_dir)) true
        ∈ ((buildL2Sel o conf l1dir dd) s).1 := by
  unfold buildL2Sel at h ⊢
  obtain ⟨l2ex, hl2e, h1, htr1, hst1⟩ := mbind_ok h
  obtain ⟨u1, hif, h2, htr2, hst2⟩ := mbind_ok h1
  cases u1
  obtain ⟨u2, hphase, hexp, htr3, hst3⟩ := mbind_ok h2
  cases u2
  intro e he
  rw [htr1, htr2, htr3]
  exact List.mem_append_right _ (List.mem_append_right _
    (List.mem_append_right _ (buildExport_mem hexp hne e he)))

theorem build_export_mem {o : Oracle} {conf : Conf} {s : St}
    {xout : List String} {dd : List (String × String) × String}
    (hs : ((build o conf) s).2.2 = Except.ok ())
    (hx : o.runOut (extractFullCmd (l1dirOf conf)) = some xout)
    (hf : fingerprint_of_output o xout = Except.ok dd)
    (hne : conf.export_dir ≠ "") :
    ∀ e ∈ exportExts,
      Ev.cmdE (exportCmd (l3dirOf conf dd.2) e (o.abspath conf.export_dir)) true
        ∈ ((build o conf) s).1 := by
  unfold build at hs ⊢
  obtain ⟨l1ex, hl1e, h1, htr1, hst1⟩ := mbind_ok hs
  obtain ⟨u1, hif1, h2, htr2, hst2⟩ := mbind_ok h1
  cases u1
  unfold buildFromExtract at h2
  obtain ⟨dd2, hex2, hsel, htr3, hst3⟩ := mbind_ok h2
  obtain ⟨xout2, hxo2, hfp2⟩ := extract_ok hex2
  have hxe : xout2 = xout := by
    rw [hx] at hxo2
    exact (Option.some.inj hxo2).symm
  subst hxe
  have hde : dd2 = dd := by
    rw [hf] at hfp2
    exact (Except.ok.inj hfp2).symm
  subst hde
  intro e he
  rw [htr1, htr2]
  refine List.mem_append_right _ (List.mem_append_right _ ?_)
  unfold buildFromExtract
  rw [htr3]
  exact List.mem_append_right _ (buildL2Sel_export_mem hsel hne e he)

/-! ## Claim C4: cache-hit idempotence -/

/-- **C4.** Building twice with an unchanged dependency set (same
fingerprint) creates the L2 layer exactly once.  A first successful build
from a state without the persisted L2 content dir emits exactly one
creation of it; the second build, run from the first build's final state
against the same external world, finds the persisted L2 content dir, skips
the L2-creation step entirely and mounts the existing L2 directly: its
session is exactly the cache-hit trace, which creates no directory at all
and whose only namespace invocations are the simulated dependency
extraction and the `dpkg-buildpackage` run — in particular the real
dependency-installation run (`apt-get build-dep -y`) is not repeated. -/
theorem c4_cache_hit_idempotence (o : Oracle) (conf : Conf) (s0 : St)
    (xout : List String) (dd : List (String × String) × String)
    (hs : ((build o conf) s0).2.2 = Except.ok ())
    (hx : o.runOut (extractFullCmd (l1dirOf conf)) = some xout)
    (hf : fingerprint_of_output o xout = Except.ok dd)
    (h0 : l2dirOf conf dd.2 ∉ s0.fs) :
    ((build o conf) s0).1.count (Ev.mkdirE (l2dirOf conf dd.2)) = 1 ∧
    (build o conf) (((build o conf) s0).2.1)
      = (cacheHitCore o conf dd.2 ++ exportEvs o conf dd.2,
         ((build o conf) s0).2.1, Except.ok ()) ∧
    (∀ p, Ev.mkdirE p ∉ cacheHitCore o conf dd.2 ++ exportEvs o conf dd.2) ∧
    (∀ c b, Ev.nspawnE c b ∈ cacheHitCore o conf dd.2 ++ exportEvs o conf dd.2 →
      c = extractFullCmd (l1dirOf conf) ∨
      c = nspawnCmdStr conf.drop_capability conf.system_call_filter
        (buildPkgCmd (l3mountdirOf conf dd.2) conf.extra_args)) := by
  obtain ⟨xout2, dd2, hxo2, hfp2, f1, f2, f3, f4, f5, f6, f7, f8, f9, m1, m2, m3, mtr⟩ :=
    build_ok_facts hs
  have hxe : xout = xout2 := by
    rw [hx] at hxo2
    exact Option.some.inj hxo2
  subst hxe
  have hde : dd = dd2 := by
    rw [hf] at hfp2
    exact Except.ok.inj hfp2
  subst hde
  refine ⟨?_, ?_, ?_, ?_⟩
  · have hmem := mtr h0
    have hge : 1 ≤ ((build o conf) s0).1.count (Ev.mkdirE (l2dirOf conf dd.2)) :=
      List.one_le_count_iff.mpr hmem
    have hle := ((mkdirDisc_build o conf) s0).2.2.2 (l2dirOf conf dd.2)
    omega
  · obtain ⟨v1, hm2⟩ := f1
    obtain ⟨v3, hm3⟩ := f3
    obtain ⟨v5, hcp⟩ := f5
    obtain ⟨v6, hbp⟩ := f6
    obtain ⟨v7, hu3⟩ := f7
    obtain ⟨v8, hu2⟩ := f8
    exact build_cache_hit m1 hx hf m2 m3 hm2 f2 hm3 f4 hcp hbp hu3 hu2 f9
  · intro p hp
    by_cases hne : conf.export_dir = "" <;>
      simp [cacheHitCore, exportEvs, mountEvs, umountEvs, hne] at hp
  · intro c b hcb
    by_cases hne : conf.export_dir = "" <;>
      simp [cacheHitCore, exportEvs, mountEvs, umountEvs, hne] at hcb <;>
      tauto

/-- Witness for `c4_cache_hit_idempotence`: a fresh cache, every external
step succeeding. -/
theorem c4_cache_hit_idempotence_witness :
    ((build oW confW ⟨[]⟩).2.2 = Except.ok ()) ∧
    (oW.runOut (extractFullCmd (l1dirOf confW)) = some []) ∧
    (fingerprint_of_output oW [] = Except.ok ([], "deadbeef00")) ∧
    (l2dirOf confW "deadbeef00" ∉ (⟨[]⟩ : St).fs) ∧
    ((build oW confW ⟨[]⟩).1.count (Ev.mkdirE (l2dirOf confW "deadbeef00")) = 1) :=
  ⟨by decide, rfl, by decide, by decide,
    (c4_cache_hit_idempotence oW confW ⟨[]⟩ [] ([], "deadbeef00")
      (by decide) rfl (by decide) (by decide)).1⟩

/-! ## Claim C10: the build never deletes or clears L3 -/

/-- **C10.** `build` never deletes or clears the L3 content dir (or any
other managed path): every path present before a build is still present
after it, and no `mkdir` is ever issued for a path that already exists —
so when L3's content dir already exists from a previous build with the
same fingerprint, its three dirs are not re-created and it is reused
as-is.  Moreover, in every successful build with an export dir configured,
the export step copies `*.{ext}` for each recognised extension out of that
same L3 content dir, so files left there by earlier builds fall within the
extension-based export copy of a later build. -/
theorem c10_l3_frame (o : Oracle) (conf : Conf) (s : St) :
    (∀ p, p ∈ s.fs → p ∈ (((build o conf) s).2.1).fs) ∧
    (∀ p, p ∈ s.fs → Ev.mkdirE p ∉ ((build o conf) s).1) ∧
    (∀ xout dd, o.runOut (extractFullCmd (l1dirOf conf)) = some xout →
      fingerprint_of_output o xout = Except.ok dd →
      ((build o conf) s).2.2 = Except.ok () → conf.export_dir ≠ "" →
      ∀ e ∈ exportExts,
        Ev.cmdE (exportCmd (l3dirOf conf dd.2) e (o.abspath conf.export_dir)) true
          ∈ ((build o conf) s).1) := by
  refine ⟨((mkdirDisc_build o conf) s).1, ((mkdirDisc_build o conf) s).2.1, ?_⟩
  intro xout dd hx hf hs hne
  exact build_export_mem hs hx hf hne

/-- Witness for `c10_l3_frame`: a state where all three layers exist. -/
theorem c10_l3_frame_witness :
    (Ev.mkdirE (l3dirOf confW "deadbeef00") ∉ (build oW confW stAllLayers).1) ∧
    (Ev.cmdE (exportCmd (l3dirOf confW "deadbeef00") "deb" (oW.abspath confW.export_dir))
      true ∈ (build oW confW stAllLayers).1) :=
  ⟨(c10_l3_frame oW confW stAllLayers).2.1 _ (by decide),
   (c10_l3_frame oW confW stAllLayers).2.2 [] ([], "deadbeef00") rfl (by decide)
     (by decide) (by decide) "deb" (by decide)⟩

/-! ## Claim C5: the L2 cache-miss creation sequence -/

/-- The cache-clean command string that `create_l2` assigns at source line
300 but never formats or executes. -/
def cleanCmd (l2mountdir : String) : String :=
  "-D " ++ l2mountdir ++ " --overlay=$(pwd)::/srv  -- /usr/bin/apt-get clean"

/-- **C5 (code evidence).** On a concrete cache-miss invocation of
`create_l2` in which every external step succeeds, the trace is exactly:
create the three dirs, mount with L1's content dir as lower, run the real
(non-simulated) `apt-get build-dep -y` install inside the mount, persist
the manifest, then unmount — and no cache-clean invocation appears
anywhere: the `apt-get clean` command string assigned at source line 300
is discarded without being executed, contradicting the claimed
"clean the package-tool caches" step.  On a fresh full `build`, the L2
mount point is mounted and unmounted exactly twice: once by the creation
and once by the build's own use — two distinct cycles. -/
theorem c5_create_l2_no_clean :
    (create_l2 oW confW "L1" "L2" "L2W" "L2M" [("a", "1")]) ⟨[]⟩
      = ([Ev.mkdirE "L2", Ev.mkdirE "L2W", Ev.mkdirE "L2M",
          Ev.mountCallE "L1" "L2" "L2W" "L2M",
          Ev.cmdE (mountCmdStr "L1" "L2" "L2W" "L2M") true,
          Ev.mountedE "L2M",
          Ev.nspawnE (nspawnCmdStr "" "" (installDepsCmd "L2M")) true,
          Ev.writeE "L2M/.deps.conbuilder" "a:1",
          Ev.umountCallE "L2M",
          Ev.cmdE "sudo umount L2M" true],
         ⟨["L2M/.deps.conbuilder", "L2M", "L2W", "L2"]⟩, Except.ok ()) ∧
    (∀ b, Ev.nspawnE (nspawnCmdStr "" "" (cleanCmd "L2M")) b
        ∉ ((create_l2 oW confW "L1" "L2" "L2W" "L2M" [("a", "1")]) ⟨[]⟩).1) ∧
    ((build oW confW ⟨[]⟩).1.count (Ev.mountedE (l2mountdirOf confW "deadbeef00")) = 2) ∧
    ((build oW confW ⟨[]⟩).1.count (Ev.umountCallE (l2mountdirOf confW "deadbeef00")) = 2) := by
  decide

end Conbuilder
